import Mathlib

/-!
Workers, watcher repository and receipt check of the Apollo notification backend.

A shallow embedding of `liveActivitiesConsumer.Consume`
(`internal/worker/live_activities.go`), of the watcher repository
(`internal/repository/postgres_watcher.go`), of the token obfuscation helper
and of `checkReceiptHandler` (`internal/api/receipt.go`), and theorems about
them.

Modelling conventions.

* A `time.Time` is an integer number of nanoseconds since the Unix epoch and a
  `time.Duration` an integer number of nanoseconds: `t.Add(d)` is `t + d`,
  `t.Before(u)` is `t < u`, `t.After(u)` is `u < t`, and `t.Unix()` is the floor
  of `t / 10^9`.
* `Consume` talks to five collaborators (the live-activity repository, the
  upstream client, APNs, the lock store and the queue delivery).  Their answers
  are the fields of `World`; every call `Consume` makes is recorded, in order and
  with its arguments and answer, as an `Event`.  Logging, metrics and tracing
  are not recorded.
* `sort.Slice` belongs to the Go standard library, which fixes its contract but
  not the order of equal elements; it is modelled by `SliceSorter`.
-/

namespace Apollo

/-! ## Time -/

/-- Nanoseconds in one second (`time.Second`). -/
def Second : Int := 1000000000

/-- Nanoseconds in one minute (`time.Minute`). -/
def Minute : Int := 60 * Second

/-- Seconds since the epoch of an instant, as `time.Time.Unix` (rounds down). -/
def unix (t : Int) : Int := t / Second

/-! ## Data model -/

/-- The fields of `reddit.Thing` that the consumer reads. -/
structure Thing where
  ID : String
  Author : String
  Body : String
  CreatedAt : Int
  Score : Int
  NumComments : Int
  deriving DecidableEq, Repr

/-- The value `reddit.ThreadResponse`: the post and its top-level comments. -/
structure ThreadResponse where
  Post : Thing
  Children : List Thing
  deriving DecidableEq, Repr

/-- The fields of `domain.LiveActivity` that the consumer reads or writes. -/
structure LiveActivity where
  APNSToken : String
  Development : Bool
  RedditAccountID : String
  AccessToken : String
  RefreshToken : String
  TokenExpiresAt : Int
  ThreadID : String
  Subreddit : String
  ExpiresAt : Int
  deriving DecidableEq, Repr

/-- The content-state struct `DynamicIslandNotification`. -/
structure DynamicIslandNotification where
  PostCommentCount : Int
  PostScore : Int
  CommentID : String
  CommentAuthor : String
  CommentBody : String
  CommentAge : Int
  CommentScore : Int
  deriving DecidableEq, Repr

/-! ## Candidate selection (lines 235-253) -/

/-- The inner loop over `tr.Children`: appends every comment created after `cutoff`. -/
def appendNewer (cutoff : Int) (children : List Thing) (candidates : List Thing) : List Thing :=
  children.foldl (fun acc t => if cutoff < t.CreatedAt then acc ++ [t] else acc) candidates

/-- The outer loop over `cutoffs`, leaving at the first cutoff after which
`candidates` is non-empty. -/
def cutoffLoop (children : List Thing) : List Int → List Thing → List Thing
  | [], candidates => candidates
  | cutoff :: rest, candidates =>
    let candidates := appendNewer cutoff children candidates
    if candidates.length > 0 then candidates else cutoffLoop children rest candidates

/-- The slice `cutoffs` built from `now` and `domain.LiveActivityCheckInterval`. -/
def cutoffs (now interval : Int) : List Int :=
  [now + -interval, now + -interval * 2, now + -interval * 4]

/-- The slice `candidates` as it stands after the cutoff loop. -/
def selectCandidates (now interval : Int) (children : List Thing) : List Thing :=
  cutoffLoop children (cutoffs now interval) []

/-- The comments created after `now - k * interval`, in fetched order. -/
def newerThan (now interval : Int) (k : Int) (children : List Thing) : List Thing :=
  children.filter (fun t => decide (now - k * interval < t.CreatedAt))

/-! ## Content state (lines 260-277) -/

/-- The contract of `sort.Slice` for a slice of comments: the result is a
rearrangement of the input and, when `less` is irreflexive, transitive and its
negation is transitive, no element is `less` than one placed before it.  The
order of elements that `less` does not separate is left open, as in Go. -/
structure SliceSorter where
  sortSlice : List Thing → (Thing → Thing → Bool) → List Thing
  perm : ∀ x less, (sortSlice x less).Perm x
  sorted : ∀ x less, (∀ a, less a a = false) →
    (∀ a b c, less a b = true → less b c = true → less a c = true) →
    (∀ a b c, less a b = false → less b c = false → less a c = false) →
    (sortSlice x less).Pairwise (fun a b => less b a = false)

/-- Insertion sort, which `sort.Slice` runs on short slices, meets the contract. -/
def insertionSorter : SliceSorter where
  sortSlice x less := x.insertionSort (fun a b => less b a = false)
  perm x less := List.perm_insertionSort _ x
  sorted x less hirr htrans hneg := by
    haveI : IsTotal Thing (fun a b => less b a = false) := ⟨fun a b => by
      cases hba : less b a
      · exact Or.inl rfl
      · right
        cases hab : less a b
        · rfl
        · have := htrans a b a hab hba
          rw [hirr a] at this
          exact absurd this (by decide)⟩
    haveI : IsTrans Thing (fun a b => less b a = false) :=
      ⟨fun a b c hab hbc => hneg c b a hbc hab⟩
    exact List.sorted_insertionSort _ x

/-- The comparison handed to `sort.Slice`: higher scores first. -/
def scoreLess (a b : Thing) : Bool := decide (a.Score > b.Score)

/-- The struct `din` as built from the post and the candidates: the candidates
are sorted by descending score and the first one, if any, fills the comment
fields. -/
def contentState (S : SliceSorter) (post : Thing) (candidates : List Thing) :
    DynamicIslandNotification :=
  let candidates := S.sortSlice candidates scoreLess
  let din : DynamicIslandNotification :=
    { PostCommentCount := post.NumComments
      PostScore := post.Score
      CommentID := ""
      CommentAuthor := ""
      CommentBody := ""
      CommentAge := 0
      CommentScore := 0 }
  match candidates with
  | [] => din
  | comment :: _ =>
    { din with
      CommentID := comment.ID
      CommentAuthor := comment.Author
      CommentBody := comment.Body
      CommentAge := unix comment.CreatedAt
      CommentScore := comment.Score }

/-! ## Collaborators -/

/-- Errors of the upstream client; `Consume` only tells `ErrOauthRevoked` apart. -/
inductive RedditError where
  | ErrOauthRevoked
  | ErrRateLimited
  | other (msg : String)
  deriving DecidableEq, Repr

/-- The per-account handle returned by `NewAuthenticatedClient`. -/
structure AuthenticatedClient where
  redditId : String
  refreshToken : String
  accessToken : String
  deriving DecidableEq, Repr

/-- The constructor `reddit.Client.NewAuthenticatedClient`. -/
def NewAuthenticatedClient (redditId refreshToken accessToken : String) : AuthenticatedClient :=
  { redditId := redditId, refreshToken := refreshToken, accessToken := accessToken }

/-- The value `reddit.RefreshTokenResponse`; `Expiry` is a duration. -/
structure RefreshTokenResponse where
  AccessToken : String
  RefreshToken : String
  Expiry : Int
  deriving DecidableEq, Repr

/-- A value stored under a key of the `aps` object. -/
inductive ApsValue where
  | contentState (din : DynamicIslandNotification)
  | number (n : Int)
  | text (s : String)
  deriving DecidableEq, Repr

/-- The struct `apns2.Notification`; `Payload` is the marshalled two-level map,
kept as its key-value pairs. -/
structure Notification where
  DeviceToken : String
  Topic : String
  PushType : String
  Payload : List (String × List (String × ApsValue))
  deriving DecidableEq, Repr

/-- The struct `apns2.Response`. -/
structure Response where
  StatusCode : Int
  Reason : String
  ApnsID : String
  deriving DecidableEq, Repr

/-- The method `apns2.Response.Sent`: the status is 200. -/
def Response.Sent (res : Response) : Bool := decide (res.StatusCode = 200)

/-- Equality of answers is decidable when equality of errors and of values is. -/
instance instDecidableEqExcept {ε α : Type} [DecidableEq ε] [DecidableEq α] :
    DecidableEq (Except ε α)
  | .ok a, .ok b =>
    if h : a = b then isTrue (by rw [h]) else isFalse (fun h' => h (Except.ok.inj h'))
  | .error a, .error b =>
    if h : a = b then isTrue (by rw [h]) else isFalse (fun h' => h (Except.error.inj h'))
  | .ok _, .error _ => isFalse (fun h => Except.noConfusion h)
  | .error _, .ok _ => isFalse (fun h => Except.noConfusion h)

/-- One call made by `Consume`, with its arguments and, where `Consume` reads
it, its answer.  `ack`, `reject` and `pushBack` are the operations of the
queue delivery. -/
inductive Event where
  | redisPTTL (key : String)
  | repoGet (apnsToken : String) (res : Except String LiveActivity)
  | refreshTokens (rac : AuthenticatedClient) (res : Except RedditError RefreshTokenResponse)
  | repoUpdate (la : LiveActivity)
  | repoDelete (apnsToken : String)
  | topLevelComments (rac : AuthenticatedClient) (subreddit threadID : String)
      (res : Except RedditError ThreadResponse)
  | apnsPush (development : Bool) (notification : Notification) (res : Except String Response)
  | ack
  | reject
  | pushBack
  | redisDel (key : String)
  deriving DecidableEq, Repr

/-- Whether the event is an APNs push. -/
def Event.isPush : Event → Bool
  | .apnsPush _ _ _ => true
  | _ => false

/-- Whether the event is a repository delete. -/
def Event.isRepoDelete : Event → Bool
  | .repoDelete _ => true
  | _ => false

/-- Whether the event is the acknowledgement of the delivery. -/
def Event.isAck : Event → Bool
  | .ack => true
  | _ => false

/-- Whether the event rejects the delivery or pushes it back. -/
def Event.isReject : Event → Bool
  | .reject => true
  | .pushBack => true
  | _ => false

/-- Whether the event deletes the given key of the lock store. -/
def Event.isRedisDel (key : String) : Event → Bool
  | .redisDel k => decide (k = key)
  | _ => false

/-- Whether the event calls `RefreshTokens`. -/
def Event.isRefresh : Event → Bool
  | .refreshTokens _ _ => true
  | _ => false

/-- Whether the event is a repository update. -/
def Event.isRepoUpdate : Event → Bool
  | .repoUpdate _ => true
  | _ => false

/-- Whether the event calls `TopLevelComments`. -/
def Event.isFetch : Event → Bool
  | .topLevelComments _ _ _ _ => true
  | _ => false

/-- The value stored under `key` in the `aps` object of a notification's payload. -/
def Notification.aps (n : Notification) (key : String) : Option ApsValue :=
  (n.Payload.lookup "aps").bind (fun aps => aps.lookup key)

/-- The keys of the `aps` object of a notification's payload. -/
def Notification.apsKeys (n : Notification) : List String :=
  ((n.Payload.lookup "aps").getD []).map Prod.fst

/-- Everything outside `Consume` that decides one run: the clock reading taken
at entry, the constant `domain.LiveActivityCheckInterval`, and the answers of
the repository, the upstream client and APNs (selected by the development
flag). -/
structure World where
  now : Int
  LiveActivityCheckInterval : Int
  liveActivityRepoGet : String → Except String LiveActivity
  RefreshTokens : AuthenticatedClient → Except RedditError RefreshTokenResponse
  TopLevelComments : AuthenticatedClient → String → String → Except RedditError ThreadResponse
  PushWithContext : Bool → Notification → Except String Response

/-! ## The consumer (lines 141-344) -/

/-- The APNs event string (lines 279-282). -/
def apnsEvent (now : Int) (la : LiveActivity) : String :=
  if la.ExpiresAt < now then "end" else "update"

/-- The notification handed to APNs (lines 284-298). -/
def buildNotification (now : Int) (la : LiveActivity) (din : DynamicIslandNotification) :
    Notification :=
  { DeviceToken := la.APNSToken
    Topic := "com.christianselig.Apollo.push-type.liveactivity"
    PushType := "liveactivity"
    Payload :=
      [("aps",
        [("content-state", ApsValue.contentState din),
         ("dismissal-date", ApsValue.number (unix la.ExpiresAt)),
         ("event", ApsValue.text (apnsEvent now la)),
         ("timestamp", ApsValue.number (unix now))])] }

/-- The repository deletes that follow the push (lines 305-339): one when the
push failed or was not sent, and one when the activity has expired. -/
def afterPush (now : Int) (apnsToken : String) (la : LiveActivity)
    (res : Except String Response) : List Event :=
  (match res with
    | .error _ => [Event.repoDelete apnsToken]
    | .ok r => if !r.Sent then [Event.repoDelete apnsToken] else [])
  ++ (if la.ExpiresAt < now then [Event.repoDelete apnsToken] else [])

/-- Lines 213-343: the comment fetch and what follows it, for the activity
`la` and the client `rac` as they stand after the token refresh. -/
def fetchAndPush (S : SliceSorter) (w : World) (apnsToken : String) (la : LiveActivity)
    (rac : AuthenticatedClient) : List Event :=
  let now := w.now
  match w.TopLevelComments rac la.Subreddit la.ThreadID with
  | .error err =>
    Event.topLevelComments rac la.Subreddit la.ThreadID (.error err) ::
      (if err = RedditError.ErrOauthRevoked then [Event.repoDelete apnsToken] else [])
  | .ok tr =>
    let fetched := Event.topLevelComments rac la.Subreddit la.ThreadID (.ok tr)
    if tr.Children.length = 0 ∧ now < la.ExpiresAt then [fetched]
    else
      let candidates := selectCandidates now w.LiveActivityCheckInterval tr.Children
      if candidates.length = 0 ∧ now < la.ExpiresAt then [fetched]
      else
        let din := contentState S tr.Post candidates
        let notification := buildNotification now la din
        let res := w.PushWithContext la.Development notification
        fetched :: Event.apnsPush la.Development notification res ::
          afterPush now apnsToken la res

/-- Lines 173-343: the body of `Consume` between the registration of the
deferred calls and their execution. -/
def consumeBody (S : SliceSorter) (w : World) (apnsToken : String) : List Event :=
  let now := w.now
  match w.liveActivityRepoGet apnsToken with
  | .error e => [Event.repoGet apnsToken (.error e)]
  | .ok la =>
    let loaded := Event.repoGet apnsToken (.ok la)
    let rac := NewAuthenticatedClient la.RedditAccountID la.RefreshToken la.AccessToken
    if la.TokenExpiresAt < now + 5 * Minute then
      match w.RefreshTokens rac with
      | .error err =>
        loaded :: Event.refreshTokens rac (.error err) ::
          (if err = RedditError.ErrOauthRevoked then [Event.repoDelete apnsToken] else [])
      | .ok tokens =>
        let la : LiveActivity := { la with
          AccessToken := tokens.AccessToken
          RefreshToken := tokens.RefreshToken
          TokenExpiresAt := now + tokens.Expiry }
        let rac' := NewAuthenticatedClient la.RedditAccountID tokens.RefreshToken
          tokens.AccessToken
        loaded :: Event.refreshTokens rac (.ok tokens) :: Event.repoUpdate la ::
          fetchAndPush S w apnsToken la rac'
    else
      loaded :: fetchAndPush S w apnsToken la rac

/-- The lock key of a delivery (line 152). -/
def lockKey (payload : String) : String := "locks:live-activities:" ++ payload

/-- The method `liveActivitiesConsumer.Consume` as the sequence of calls it
makes for a delivery with the given payload: the lock-age reading, the body,
and then the deferred calls in the order Go runs them (last registered first:
the acknowledgement, then the removal of the lock key). -/
def Consume (S : SliceSorter) (w : World) (payload : String) : List Event :=
  Event.redisPTTL (lockKey payload) :: consumeBody S w payload
    ++ [Event.ack, Event.redisDel (lockKey payload)]

/-! ## Example data -/

/-- A comment with the given id, creation time in seconds and score. -/
def exComment (id : String) (createdSec score : Int) : Thing :=
  { ID := id, Author := "author", Body := "body", CreatedAt := createdSec * Second,
    Score := score, NumComments := 0 }

/-- A post with score 120 and three comments. -/
def exPost : Thing :=
  { ID := "post", Author := "op", Body := "", CreatedAt := 0, Score := 120, NumComments := 3 }

/-- A production live activity `LA1` with the given token expiry and expiry, in seconds. -/
def exActivity (tokenExpiresSec expiresSec : Int) : LiveActivity :=
  { APNSToken := "LA1", Development := false, RedditAccountID := "acct",
    AccessToken := "access-old", RefreshToken := "refresh-old",
    TokenExpiresAt := tokenExpiresSec * Second, ThreadID := "thread", Subreddit := "sub",
    ExpiresAt := expiresSec * Second }

/-- A run at second 1000 with a check interval of 30 seconds: the repository
holds `la` under `LA1`, and the upstream client and APNs give the fixed answers. -/
def exWorld (la : LiveActivity) (refresh : Except RedditError RefreshTokenResponse)
    (comments : Except RedditError ThreadResponse) (push : Except String Response) : World :=
  { now := 1000 * Second
    LiveActivityCheckInterval := 30 * Second
    liveActivityRepoGet := fun t => if t = "LA1" then .ok la else .error "no rows"
    RefreshTokens := fun _ => refresh
    TopLevelComments := fun _ _ _ => comments
    PushWithContext := fun _ _ => push }

/-- New tokens valid for one hour. -/
def exTokens : RefreshTokenResponse :=
  { AccessToken := "access-new", RefreshToken := "refresh-new", Expiry := 3600 * Second }

/-- A thread with one comment from second 990 (score 5), one from second 985
(score 9) and one from second 900 (score 50). -/
def exThread : ThreadResponse :=
  { Post := exPost
    Children := [exComment "c1" 990 5, exComment "c2" 985 9, exComment "c3" 900 50] }

/-- An APNs answer with status 200. -/
def exSent : Response := { StatusCode := 200, Reason := "", ApnsID := "id" }

/-- The run at second 1000 for `LA1` with a fresh token, expiry at second 2000,
the example thread and a sent push. -/
def exUpdateWorld : World :=
  exWorld (exActivity 5000 2000) (.ok exTokens) (.ok exThread) (.ok exSent)

/-- The notification that `exUpdateWorld` pushes. -/
def exUpdateNotification : Notification :=
  buildNotification (1000 * Second) (exActivity 5000 2000)
    (contentState insertionSorter exPost [exComment "c1" 990 5, exComment "c2" 985 9])

/-- The client built from the stored tokens of the example activity. -/
def exClient : AuthenticatedClient := NewAuthenticatedClient "acct" "refresh-old" "access-old"

/-- The run at second 1000 for `LA1` expiring at that very instant, on a thread
without comments. -/
def exBoundaryWorld : World :=
  exWorld (exActivity 5000 1000) (.ok exTokens) (.ok { Post := exPost, Children := [] })
    (.ok exSent)

/-- The run at second 1000 for `LA1` expired one second earlier. -/
def exExpiredWorld (comments : Except RedditError ThreadResponse) : World :=
  exWorld (exActivity 5000 999) (.ok exTokens) comments (.ok exSent)

/-- The notification that `exExpiredWorld` pushes for the example thread. -/
def exEndNotification : Notification :=
  buildNotification (1000 * Second) (exActivity 5000 999)
    (contentState insertionSorter exPost [exComment "c1" 990 5, exComment "c2" 985 9])

/-- The run of `exUpdateWorld` with the given answer of APNs. -/
def exPushWorld (push : Except String Response) : World :=
  exWorld (exActivity 5000 2000) (.ok exTokens) (.ok exThread) push

/-- An APNs answer with status 503. -/
def exUnavailable : Response :=
  { StatusCode := 503, Reason := "ServiceUnavailable", ApnsID := "id" }

/-- A thread whose only comment is 200 seconds old at second 1000. -/
def exQuietThread : ThreadResponse :=
  { Post := exPost, Children := [exComment "c3" 800 50] }

/-- The run at second 1000 for `LA1`, not expired, on the quiet thread. -/
def exQuietWorld : World :=
  exWorld (exActivity 5000 2000) (.ok exTokens) (.ok exQuietThread) (.ok exSent)

/-- The run at second 1000 for `LA1` whose token expires at second 1200, with
the given answers to the refresh and to the fetch. -/
def exRefreshWorld (refresh : Except RedditError RefreshTokenResponse)
    (comments : Except RedditError ThreadResponse) : World :=
  exWorld (exActivity 1200 2000) refresh comments (.ok exSent)

/-! ## Watcher repository (`internal/repository/postgres_watcher.go`)

The store is a record of tables, each a list of rows holding the columns the
queries read.  A query is the list of result rows its SQL text yields on the
store; `Connection` adds the ways a call can fail: at the call, while the
result set is read, and at the scan of a row.  Columns are taken to be
non-null; a value that does not scan is a scan failure. -/

/-- Modelled from the spec: the constant `domain.SubredditWatcher`, declared
outside the listed sources; the spec gives its value as 0. -/
def SubredditWatcher : Int := 0

/-- Modelled from the spec: the constant `domain.UserWatcher`, declared outside
the listed sources; the spec gives its value as 1. -/
def UserWatcher : Int := 1

/-- Modelled from the spec: the constant `domain.TrendingWatcher`, declared
outside the listed sources; the spec gives its value as 2. -/
def TrendingWatcher : Int := 2

/-- A row of table `watchers`. -/
structure WatcherRecord where
  id : Int
  created_at : Int
  last_notified_at : Int
  label : String
  device_id : Int
  account_id : Int
  type : Int
  watchee_id : Int
  author : String
  subreddit : String
  upvotes : Int
  keyword : String
  flair : String
  domain : String
  hits : Int
  deriving DecidableEq, Repr

/-- The columns of table `devices` that the watcher queries read. -/
structure DeviceRecord where
  id : Int
  apns_token : String
  sandbox : Bool
  deriving DecidableEq, Repr

/-- The columns of table `accounts` that the watcher queries read. -/
structure AccountRecord where
  id : Int
  reddit_account_id : String
  access_token : String
  refresh_token : String
  deriving DecidableEq, Repr

/-- The columns of table `devices_accounts` that the watcher queries read. -/
structure DeviceAccountRecord where
  device_id : Int
  account_id : Int
  watcher_notifiable : Bool
  global_mute : Bool
  deriving DecidableEq, Repr

/-- The columns of tables `subreddits` and `users` that the watcher queries read. -/
structure NamedRecord where
  id : Int
  name : String
  deriving DecidableEq, Repr

/-- The tables of the store. -/
structure Database where
  watchers : List WatcherRecord
  devices : List DeviceRecord
  accounts : List AccountRecord
  devices_accounts : List DeviceAccountRecord
  subreddits : List NamedRecord
  users : List NamedRecord
  deriving DecidableEq, Repr

/-- One row of the 24-column result of the watcher queries: the fifteen
watcher columns, the three device columns, the four account columns and the
two labels. -/
structure ResultRow where
  watcher : WatcherRecord
  device : DeviceRecord
  account : AccountRecord
  subreddit_label : String
  user_label : String
  deriving DecidableEq, Repr

/-- The clause `left INNER JOIN right ON cond`. -/
def innerJoin {α β : Type} (left : List α) (right : List β) (cond : α → β → Bool) :
    List (α × β) :=
  left.flatMap (fun a => (right.filter (cond a)).map (fun b => (a, b)))

/-- The clause `left LEFT JOIN right ON cond`: a row without a match is kept once,
with no right-hand side. -/
def leftJoin {α β : Type} (left : List α) (right : List β) (cond : α → β → Bool) :
    List (α × Option β) :=
  left.flatMap (fun a =>
    match right.filter (cond a) with
    | [] => [(a, none)]
    | b :: bs => (b :: bs).map (fun b => (a, some b)))

/-- The expression `COALESCE(name, '')` over a left-joined table. -/
def coalesceName (r : Option NamedRecord) : String :=
  match r with
  | some r => r.name
  | none => ""

/-- The result of the query of `GetByID` (lines 72-103) with `$1 = id`. -/
def queryGetByID (db : Database) (id : Int) : List ResultRow :=
  let j1 := innerJoin db.watchers db.devices (fun w d => decide (w.device_id = d.id))
  let j2 := innerJoin j1 db.accounts (fun r a => decide (r.1.account_id = a.id))
  let j3 := leftJoin j2 db.subreddits (fun r s =>
    (decide (r.1.1.type = 0) || decide (r.1.1.type = 2)) && decide (r.1.1.watchee_id = s.id))
  let j4 := leftJoin j3 db.users (fun r u =>
    decide (r.1.1.1.type = 1) && decide (r.1.1.1.watchee_id = u.id))
  (j4.filter (fun r => decide (r.1.1.1.1.id = id))).map (fun r =>
    { watcher := r.1.1.1.1, device := r.1.1.1.2, account := r.1.1.2,
      subreddit_label := coalesceName r.1.2, user_label := coalesceName r.2 })

/-- The result of the query of `GetByTypeAndWatcheeID` (lines 117-152) with
`$1 = typ` and `$2 = id`. -/
def queryGetByTypeAndWatcheeID (db : Database) (typ id : Int) : List ResultRow :=
  let j1 := innerJoin db.watchers db.devices (fun w d => decide (w.device_id = d.id))
  let j2 := innerJoin j1 db.accounts (fun r a => decide (r.1.account_id = a.id))
  let j3 := innerJoin j2 db.devices_accounts (fun r da =>
    decide (r.1.2.id = da.device_id) && decide (r.2.id = da.account_id))
  let j4 := leftJoin j3 db.subreddits (fun r s =>
    (decide (r.1.1.1.type = 0) || decide (r.1.1.1.type = 2)) &&
      decide (r.1.1.1.watchee_id = s.id))
  let j5 := leftJoin j4 db.users (fun r u =>
    decide (r.1.1.1.1.type = 1) && decide (r.1.1.1.1.watchee_id = u.id))
  (j5.filter (fun r =>
      decide (r.1.1.1.1.1.type = typ) && decide (r.1.1.1.1.1.watchee_id = id) &&
      decide (r.1.1.2.watcher_notifiable = true) && decide (r.1.1.2.global_mute = false))).map
    (fun r =>
      { watcher := r.1.1.1.1.1, device := r.1.1.1.1.2, account := r.1.1.1.2,
        subreddit_label := coalesceName r.1.2, user_label := coalesceName r.2 })

/-- An error of the connection, as opposed to the sentinel `domain.ErrNotFound`. -/
structure DbError where
  msg : String
  deriving DecidableEq, Repr

/-- The value `pgx.Rows`: the rows for which `Next` reports true, each with the
outcome of its `Scan`, and the value of `rows.Err()` once `Next` reports false,
which is the error that ended the reading of the result set early, if any. -/
structure Rows where
  rows : List (Except DbError ResultRow)
  Err : Option DbError
  deriving DecidableEq, Repr

/-- What `conn.Query` returns: an error, or the rows. -/
abbrev QueryAnswer := Except DbError Rows

/-- The connection: the store, the error with which its next call fails (if
any), the number of rows after which the reading of a result set breaks off
and the error it breaks off with (if any), the rows that fail to scan, and the
number of statements executed. -/
structure Connection where
  db : Database
  callError : Option DbError
  readError : Option (Nat × DbError)
  scanError : ResultRow → Option DbError
  statements : Nat

/-- The call `conn.Query` for a query given by its result on the store. -/
def Connection.Query (conn : Connection) (query : Database → List ResultRow) : QueryAnswer :=
  match conn.callError with
  | some e => .error e
  | none =>
    let rows := (query conn.db).map (fun r =>
      match conn.scanError r with
      | some e => Except.error e
      | none => Except.ok r)
    match conn.readError with
    | none => .ok { rows := rows, Err := none }
    | some (k, e) => .ok { rows := rows.take k, Err := some e }

/-- The call `conn.Exec` for a statement given by its effect on the store. -/
def Connection.Exec (conn : Connection) (statement : Database → Database) :
    Connection × Option DbError :=
  match conn.callError with
  | some e => ({ conn with statements := conn.statements + 1 }, some e)
  | none => ({ conn with db := statement conn.db, statements := conn.statements + 1 }, none)

/-- The fields of `domain.Device` that `fetch` fills. -/
structure Device where
  ID : Int
  APNSToken : String
  Sandbox : Bool
  ExpiresAt : Int
  GracePeriodExpiresAt : Int
  deriving DecidableEq, Repr

/-- The fields of `domain.Account` that `fetch` fills. -/
structure Account where
  ID : Int
  AccountID : String
  AccessToken : String
  RefreshToken : String
  deriving DecidableEq, Repr

/-- The struct `domain.Watcher`; `Typ` is its field `Type`. -/
structure Watcher where
  ID : Int
  CreatedAt : Int
  LastNotifiedAt : Int
  Label : String
  DeviceID : Int
  AccountID : Int
  Typ : Int
  WatcheeID : Int
  WatcheeLabel : String
  Author : String
  Subreddit : String
  Upvotes : Int
  Keyword : String
  Flair : String
  Domain : String
  Hits : Int
  Device : Device
  Account : Account
  deriving DecidableEq, Repr

/-- The zero value `domain.Device{}`. -/
def Device.zero : Device :=
  { ID := 0, APNSToken := "", Sandbox := false, ExpiresAt := 0, GracePeriodExpiresAt := 0 }

/-- The zero value `domain.Account{}`. -/
def Account.zero : Account :=
  { ID := 0, AccountID := "", AccessToken := "", RefreshToken := "" }

/-- The zero value `domain.Watcher{}`. -/
def Watcher.zero : Watcher :=
  { ID := 0
    CreatedAt := 0
    LastNotifiedAt := 0
    Label := ""
    DeviceID := 0
    AccountID := 0
    Typ := 0
    WatcheeID := 0
    WatcheeLabel := ""
    Author := ""
    Subreddit := ""
    Upvotes := 0
    Keyword := ""
    Flair := ""
    Domain := ""
    Hits := 0
    Device := Device.zero
    Account := Account.zero }

/-- The body of the row loop of `fetch` for a row that scans (lines 27-64):
the scanned fields and the label chosen by the watcher type. -/
def scanWatcher (r : ResultRow) : Watcher :=
  let watcher : Watcher :=
    { Watcher.zero with
      ID := r.watcher.id
      CreatedAt := r.watcher.created_at
      LastNotifiedAt := r.watcher.last_notified_at
      Label := r.watcher.label
      DeviceID := r.watcher.device_id
      AccountID := r.watcher.account_id
      Typ := r.watcher.type
      WatcheeID := r.watcher.watchee_id
      Author := r.watcher.author
      Subreddit := r.watcher.subreddit
      Upvotes := r.watcher.upvotes
      Keyword := r.watcher.keyword
      Flair := r.watcher.flair
      Domain := r.watcher.domain
      Hits := r.watcher.hits
      Device := { Device.zero with
        ID := r.device.id
        APNSToken := r.device.apns_token
        Sandbox := r.device.sandbox }
      Account :=
        { ID := r.account.id, AccountID := r.account.reddit_account_id,
          AccessToken := r.account.access_token, RefreshToken := r.account.refresh_token } }
  if watcher.Typ = SubredditWatcher ∨ watcher.Typ = TrendingWatcher then
    { watcher with WatcheeLabel := r.subreddit_label }
  else if watcher.Typ = UserWatcher then
    { watcher with WatcheeLabel := r.user_label }
  else watcher

/-- The row loop of `fetch` (lines 26-68): a row that fails to scan ends the
call with no watchers and that error. -/
def fetchRows : List (Except DbError ResultRow) → List Watcher → List Watcher × Option DbError
  | [], watchers => (watchers, none)
  | .error e :: _, _ => ([], some e)
  | .ok r :: rest, watchers => fetchRows rest (watchers ++ [scanWatcher r])

/-- The method `postgresWatcherRepository.fetch` on the answer of `conn.Query`:
the loop runs while `rows.Next()` reports true, and `rows.Err()` is not read. -/
def fetch (answer : QueryAnswer) : List Watcher × Option DbError :=
  match answer with
  | .error e => ([], some e)
  | .ok rows => fetchRows rows.rows []

/-- The errors `GetByID` can return: the sentinel `domain.ErrNotFound` or an
error of the connection. -/
inductive RepositoryError where
  | ErrNotFound
  | underlying (e : DbError)
  deriving DecidableEq, Repr

/-- The method `postgresWatcherRepository.GetByID` (lines 71-114). -/
def GetByID (conn : Connection) (id : Int) : Watcher × Option RepositoryError :=
  match fetch (conn.Query (fun db => queryGetByID db id)) with
  | (_, some err) => (Watcher.zero, some (RepositoryError.underlying err))
  | (watchers, none) =>
    match watchers with
    | [] => (Watcher.zero, some RepositoryError.ErrNotFound)
    | first :: _ => (first, none)

/-- The method `postgresWatcherRepository.GetByTypeAndWatcheeID` (lines 116-155). -/
def GetByTypeAndWatcheeID (conn : Connection) (typ id : Int) : List Watcher × Option DbError :=
  fetch (conn.Query (fun db => queryGetByTypeAndWatcheeID db typ id))

/-- The method `postgresWatcherRepository.GetByTrendingSubredditID`. -/
def GetByTrendingSubredditID (conn : Connection) (id : Int) : List Watcher × Option DbError :=
  GetByTypeAndWatcheeID conn TrendingWatcher id

/-- The method `postgresWatcherRepository.GetBySubredditID`. -/
def GetBySubredditID (conn : Connection) (id : Int) : List Watcher × Option DbError :=
  GetByTypeAndWatcheeID conn SubredditWatcher id

/-- The method `postgresWatcherRepository.GetByUserID`. -/
def GetByUserID (conn : Connection) (id : Int) : List Watcher × Option DbError :=
  GetByTypeAndWatcheeID conn UserWatcher id

/-- The statement `UPDATE watchers SET hits = hits + 1, last_notified_at = $2
WHERE id = $1` (line 275) with `$1 = id` and `$2 = now`. -/
def updateHits (id now : Int) (db : Database) : Database :=
  { db with
    watchers := db.watchers.map (fun w =>
      if w.id = id then { w with hits := w.hits + 1, last_notified_at := now } else w) }

/-- The method `postgresWatcherRepository.IncrementHits` (lines 274-278), with
`now` the reading of `time.Now()`. -/
def IncrementHits (conn : Connection) (id now : Int) : Connection × Option DbError :=
  conn.Exec (updateHits id now)

/-! ## Token obfuscation (`internal/reddit/client.go`) -/

/-- Modelled from the spec: the obfuscation helper of the upstream client,
whose source file is outside the listed sources (only its test is listed).
Per the spec, a token of length at most 8 renders as `<SHORT>`, and any other
token as its first three characters, `...`, and its last three characters. -/
def obfuscate (s : String) : String :=
  if s.length ≤ 8 then "<SHORT>"
  else String.mk (s.data.take 3 ++ "...".data ++ s.data.drop (s.length - 3))

/-- Modelled from the spec: the method `AuthenticatedClient.ObfuscatedAccessToken`,
outside the listed sources, as the obfuscation of the client's access token. -/
def AuthenticatedClient.ObfuscatedAccessToken (rac : AuthenticatedClient) : String :=
  obfuscate rac.accessToken

/-! ## Receipt check (`internal/api/receipt.go`) -/

/-- The fields of `itunes.IAPResponse` that the handler reads; the verification
info is kept as its marshalled text. -/
structure IAPResponse where
  DeleteDevice : Bool
  VerificationInfo : String
  deriving DecidableEq, Repr

/-- Everything outside `checkReceiptHandler` that decides one request: the
reading of `time.Now()` (every path reads the clock at most once), the two
duration constants of package `domain`, and the answers of the receipt parser
and of the device and account repositories. -/
structure ReceiptWorld where
  now : Int
  DeviceActiveAfterReceitCheckDuration : Int
  DeviceGracePeriodAfterReceiptExpiry : Int
  NewIAPResponse : String → Except String IAPResponse
  deviceGetByAPNSToken : String → Except String Device
  accountGetByAPNSToken : String → Except String (List Account)

/-- One call made by `checkReceiptHandler`, with its arguments and, where the
handler reads it, its answer. -/
inductive ReceiptEvent where
  | deviceGetByAPNSToken (apns : String) (res : Except String Device)
  | accountGetByAPNSToken (apns : String) (res : Except String (List Account))
  | accountDisassociate (acc : Account) (dev : Device)
  | deviceDelete (apns : String)
  | deviceUpdate (dev : Device)
  | errorResponse (status : Int) (err : String)
  | writeHeader (status : Int)
  | write (body : String)
  deriving DecidableEq, Repr

/-- Whether the event deletes a device. -/
def ReceiptEvent.isDelete : ReceiptEvent → Bool
  | .deviceDelete _ => true
  | _ => false

/-- Whether the event updates a device. -/
def ReceiptEvent.isUpdate : ReceiptEvent → Bool
  | .deviceUpdate _ => true
  | _ => false

/-- Whether the event disassociates an account from a device. -/
def ReceiptEvent.isDisassociate : ReceiptEvent → Bool
  | .accountDisassociate _ _ => true
  | _ => false

/-- The device with its expiry pushed out from `now` (lines 36-37 and 68-69). -/
def refreshDevice (w : ReceiptWorld) (dev : Device) : Device :=
  let dev : Device := { dev with ExpiresAt := w.now + w.DeviceActiveAfterReceitCheckDuration }
  { dev with
    GracePeriodExpiresAt := dev.ExpiresAt + w.DeviceGracePeriodAfterReceiptExpiry }

/-- The handler `api.checkReceiptHandler` (lines 17-78) for the route variable
`apns` and the request body `body`, as the sequence of calls it makes. -/
def checkReceiptHandler (w : ReceiptWorld) (apns body : String) : List ReceiptEvent :=
  match w.NewIAPResponse body with
  | .error err =>
    if apns ≠ "" then
      match w.deviceGetByAPNSToken apns with
      | .error e =>
        [ReceiptEvent.deviceGetByAPNSToken apns (.error e), ReceiptEvent.errorResponse 500 e]
      | .ok dev =>
        [ReceiptEvent.deviceGetByAPNSToken apns (.ok dev),
         ReceiptEvent.deviceUpdate (refreshDevice w dev),
         ReceiptEvent.errorResponse 500 err]
    else [ReceiptEvent.errorResponse 500 err]
  | .ok iapr =>
    let respond := [ReceiptEvent.writeHeader 200, ReceiptEvent.write iapr.VerificationInfo]
    if apns ≠ "" then
      match w.deviceGetByAPNSToken apns with
      | .error e =>
        [ReceiptEvent.deviceGetByAPNSToken apns (.error e), ReceiptEvent.errorResponse 500 e]
      | .ok dev =>
        let found := ReceiptEvent.deviceGetByAPNSToken apns (.ok dev)
        if iapr.DeleteDevice then
          if dev.GracePeriodExpiresAt < w.now then
            match w.accountGetByAPNSToken apns with
            | .error e =>
              [found, ReceiptEvent.accountGetByAPNSToken apns (.error e),
               ReceiptEvent.errorResponse 500 e]
            | .ok accs =>
              found :: ReceiptEvent.accountGetByAPNSToken apns (.ok accs) ::
                (accs.map (fun acc => ReceiptEvent.accountDisassociate acc dev) ++
                  ReceiptEvent.deviceDelete apns :: respond)
          else found :: respond
        else found :: ReceiptEvent.deviceUpdate (refreshDevice w dev) :: respond
    else respond

/-! ## Example store and requests -/

/-- A subreddit watcher on watchee 7 with the given id, device and account. -/
def exWatcherRecord (id device account : Int) : WatcherRecord :=
  { id := id, created_at := 100, last_notified_at := 200, label := "label",
    device_id := device, account_id := account, type := 0, watchee_id := 7, author := "",
    subreddit := "", upvotes := 5, keyword := "lean", flair := "", domain := "", hits := 3 }

/-- A store with three watchers of subreddit 7: watcher 1 on a notifiable pair,
watcher 2 on a muted pair and watcher 3 on a pair without association row. -/
def exDatabase : Database :=
  { watchers := [exWatcherRecord 1 10 20, exWatcherRecord 2 11 20, exWatcherRecord 3 12 20]
    devices :=
      [{ id := 10, apns_token := "d10", sandbox := false },
       { id := 11, apns_token := "d11", sandbox := false },
       { id := 12, apns_token := "d12", sandbox := true }]
    accounts :=
      [{ id := 20, reddit_account_id := "acct", access_token := "access",
         refresh_token := "refresh" }]
    devices_accounts :=
      [{ device_id := 10, account_id := 20, watcher_notifiable := true, global_mute := false },
       { device_id := 11, account_id := 20, watcher_notifiable := true, global_mute := true }]
    subreddits := [{ id := 7, name := "programming" }]
    users := [] }

/-- A connection to the example store on which no call and no scan fails. -/
def exConnection : Connection :=
  { db := exDatabase, callError := none, readError := none, scanError := fun _ => none,
    statements := 0 }

/-- The watcher that `fetch` builds from watcher 1 of the example store. -/
def exWatcher : Watcher :=
  { ID := 1, CreatedAt := 100, LastNotifiedAt := 200, Label := "label", DeviceID := 10,
    AccountID := 20, Typ := 0, WatcheeID := 7, WatcheeLabel := "programming", Author := "",
    Subreddit := "", Upvotes := 5, Keyword := "lean", Flair := "", Domain := "", Hits := 3,
    Device := { Device.zero with ID := 10, APNSToken := "d10" },
    Account :=
      { ID := 20, AccountID := "acct", AccessToken := "access", RefreshToken := "refresh" } }

/-- The example connection with every call failing. -/
def exBrokenConnection : Connection :=
  { exConnection with callError := some { msg := "connection refused" } }

/-- The example connection on which the reading of every result set breaks off
before its first row. -/
def exReadFailConnection : Connection :=
  { exConnection with readError := some (0, { msg := "connection reset" }) }

/-- The example connection on which the row of watcher 1 fails to scan. -/
def exScanFailConnection : Connection :=
  { exConnection with
    scanError := fun r => if r.watcher.id = 1 then some { msg := "cannot scan" } else none }

/-- A receipt that asks for the deletion of the device. -/
def exExpiredReceipt : IAPResponse := { DeleteDevice := true, VerificationInfo := "info" }

/-- A device whose grace period ended at second 900. -/
def exDevice : Device :=
  { ID := 10, APNSToken := "d10", Sandbox := false, ExpiresAt := 800 * Second,
    GracePeriodExpiresAt := 900 * Second }

/-- The account associated with the example device. -/
def exAccount : Account :=
  { ID := 20, AccountID := "acct", AccessToken := "access", RefreshToken := "refresh" }

/-- A request at second 1000 for device `d10`: the receipt parses to `iapr`, the
device is found, and the account lookup gives the fixed answer. -/
def exReceiptWorld (iapr : IAPResponse) (accounts : Except String (List Account)) :
    ReceiptWorld :=
  { now := 1000 * Second
    DeviceActiveAfterReceitCheckDuration := 3600 * Second
    DeviceGracePeriodAfterReceiptExpiry := 7200 * Second
    NewIAPResponse := fun _ => .ok iapr
    deviceGetByAPNSToken := fun t => if t = "d10" then .ok exDevice else .error "no rows"
    accountGetByAPNSToken := fun _ => accounts }

/-! ## Candidate selection: lemmas -/

theorem appendNewer_eq (cutoff : Int) (children candidates : List Thing) :
    appendNewer cutoff children candidates
      = candidates ++ children.filter (fun t => decide (cutoff < t.CreatedAt)) := by
  unfold appendNewer
  induction children generalizing candidates with
  | nil => simp
  | cons t ts ih =>
    by_cases h : cutoff < t.CreatedAt
    · simp [List.foldl_cons, ih, h, List.filter_cons]
    · simp [List.foldl_cons, ih, h, List.filter_cons]

theorem selectCandidates_eq (now interval : Int) (children : List Thing) :
    selectCandidates now interval children =
      if newerThan now interval 1 children ≠ [] then newerThan now interval 1 children
      else if newerThan now interval 2 children ≠ [] then newerThan now interval 2 children
      else newerThan now interval 4 children := by
  have e1 : now + -interval = now - 1 * interval := by ring
  have e2 : now + -interval * 2 = now - 2 * interval := by ring
  have e4 : now + -interval * 4 = now - 4 * interval := by ring
  simp only [selectCandidates, cutoffs, cutoffLoop, appendNewer_eq, List.nil_append, newerThan,
    e1, e2, e4, List.length_pos, ne_eq]
  split
  · rfl
  · rename_i h1
    simp only [not_not] at h1
    simp only [h1, List.nil_append]
    split
    · rfl
    · rename_i h2
      simp only [not_not] at h2
      simp [h2]

theorem newerThan_mono (now interval : Int) (hI : 0 ≤ interval) (j k : Int) (hjk : j ≤ k)
    (children : List Thing) (h : newerThan now interval k children = []) :
    newerThan now interval j children = [] := by
  simp only [newerThan, List.filter_eq_nil_iff, decide_eq_true_eq] at h ⊢
  intro t ht hlt
  apply h t ht
  have : j * interval ≤ k * interval := Int.mul_le_mul_of_nonneg_right hjk hI
  omega

theorem selectCandidates_nil (now interval : Int) : selectCandidates now interval [] = [] := by
  simp [selectCandidates_eq, newerThan]

/-! ## The run: case analysis -/

theorem fetchAndPush_cases (S : SliceSorter) (w : World) (p : String) (la : LiveActivity)
    (rac : AuthenticatedClient) :
    (∃ err, w.TopLevelComments rac la.Subreddit la.ThreadID = .error err ∧
      fetchAndPush S w p la rac =
        Event.topLevelComments rac la.Subreddit la.ThreadID (.error err) ::
          (if err = RedditError.ErrOauthRevoked then [Event.repoDelete p] else [])) ∨
    (∃ tr, w.TopLevelComments rac la.Subreddit la.ThreadID = .ok tr ∧
      selectCandidates w.now w.LiveActivityCheckInterval tr.Children = [] ∧
      w.now < la.ExpiresAt ∧
      fetchAndPush S w p la rac =
        [Event.topLevelComments rac la.Subreddit la.ThreadID (.ok tr)]) ∨
    (∃ tr, w.TopLevelComments rac la.Subreddit la.ThreadID = .ok tr ∧
      ¬ (selectCandidates w.now w.LiveActivityCheckInterval tr.Children = [] ∧
          w.now < la.ExpiresAt) ∧
      fetchAndPush S w p la rac =
        Event.topLevelComments rac la.Subreddit la.ThreadID (.ok tr) ::
        Event.apnsPush la.Development
          (buildNotification w.now la (contentState S tr.Post
            (selectCandidates w.now w.LiveActivityCheckInterval tr.Children)))
          (w.PushWithContext la.Development
            (buildNotification w.now la (contentState S tr.Post
              (selectCandidates w.now w.LiveActivityCheckInterval tr.Children)))) ::
        afterPush w.now p la
          (w.PushWithContext la.Development
            (buildNotification w.now la (contentState S tr.Post
              (selectCandidates w.now w.LiveActivityCheckInterval tr.Children))))) := by
  unfold fetchAndPush
  cases hfetch : w.TopLevelComments rac la.Subreddit la.ThreadID with
  | error err => exact Or.inl ⟨err, rfl, rfl⟩
  | ok tr =>
    right
    by_cases hexp : w.now < la.ExpiresAt
    · by_cases hc : selectCandidates w.now w.LiveActivityCheckInterval tr.Children = []
      · left
        refine ⟨tr, rfl, hc, hexp, ?_⟩
        simp [hexp, hc]
      · right
        refine ⟨tr, rfl, fun h => hc h.1, ?_⟩
        have hne : tr.Children ≠ [] := by
          intro h
          exact hc (by rw [h, selectCandidates_nil])
        simp [hexp, hc, hne]
    · right
      refine ⟨tr, rfl, fun h => hexp h.2, ?_⟩
      simp [hexp]

/-- The activity and client with which the comment fetch is made, and the calls
recorded between the load and the fetch. -/
theorem consumeBody_cases (S : SliceSorter) (w : World) (p : String) :
    (∃ e, w.liveActivityRepoGet p = .error e ∧
      consumeBody S w p = [Event.repoGet p (.error e)]) ∨
    (∃ la err, w.liveActivityRepoGet p = .ok la ∧
      la.TokenExpiresAt < w.now + 5 * Minute ∧
      w.RefreshTokens (NewAuthenticatedClient la.RedditAccountID la.RefreshToken la.AccessToken)
        = .error err ∧
      consumeBody S w p =
        Event.repoGet p (.ok la) ::
        Event.refreshTokens
          (NewAuthenticatedClient la.RedditAccountID la.RefreshToken la.AccessToken)
          (.error err) ::
        (if err = RedditError.ErrOauthRevoked then [Event.repoDelete p] else [])) ∨
    (∃ la tokens, w.liveActivityRepoGet p = .ok la ∧
      la.TokenExpiresAt < w.now + 5 * Minute ∧
      w.RefreshTokens (NewAuthenticatedClient la.RedditAccountID la.RefreshToken la.AccessToken)
        = .ok tokens ∧
      consumeBody S w p =
        Event.repoGet p (.ok la) ::
        Event.refreshTokens
          (NewAuthenticatedClient la.RedditAccountID la.RefreshToken la.AccessToken)
          (.ok tokens) ::
        Event.repoUpdate { la with
          AccessToken := tokens.AccessToken
          RefreshToken := tokens.RefreshToken
          TokenExpiresAt := w.now + tokens.Expiry } ::
        fetchAndPush S w p
          { la with
            AccessToken := tokens.AccessToken
            RefreshToken := tokens.RefreshToken
            TokenExpiresAt := w.now + tokens.Expiry }
          (NewAuthenticatedClient la.RedditAccountID tokens.RefreshToken tokens.AccessToken)) ∨
    (∃ la, w.liveActivityRepoGet p = .ok la ∧
      ¬ la.TokenExpiresAt < w.now + 5 * Minute ∧
      consumeBody S w p =
        Event.repoGet p (.ok la) ::
        fetchAndPush S w p la
          (NewAuthenticatedClient la.RedditAccountID la.RefreshToken la.AccessToken)) := by
  unfold consumeBody
  cases hget : w.liveActivityRepoGet p with
  | error e => exact Or.inl ⟨e, rfl, rfl⟩
  | ok la =>
    right
    by_cases hexp : la.TokenExpiresAt < w.now + 5 * Minute
    · cases href : w.RefreshTokens
          (NewAuthenticatedClient la.RedditAccountID la.RefreshToken la.AccessToken) with
      | error err =>
        left
        refine ⟨la, err, rfl, hexp, href, ?_⟩
        simp [hexp, href]
      | ok tokens =>
        right; left
        refine ⟨la, tokens, rfl, hexp, href, ?_⟩
        simp [hexp, href]
    · right; right
      refine ⟨la, rfl, hexp, ?_⟩
      simp [hexp]

/-! ## Content state: lemmas -/

theorem scoreLess_irrefl (a : Thing) : scoreLess a a = false := by
  simp [scoreLess]

theorem scoreLess_trans (a b c : Thing) (hab : scoreLess a b = true) (hbc : scoreLess b c = true) :
    scoreLess a c = true := by
  simp only [scoreLess, gt_iff_lt, decide_eq_true_eq] at *
  omega

theorem scoreLess_negtrans (a b c : Thing) (hab : scoreLess a b = false)
    (hbc : scoreLess b c = false) : scoreLess a c = false := by
  simp only [scoreLess, gt_iff_lt, decide_eq_false_iff_not, not_lt] at *
  omega

/-- The head of the sorted candidates is a candidate of greatest score. -/
theorem sortSlice_head (S : SliceSorter) (candidates : List Thing) (c : Thing) (rest : List Thing)
    (h : S.sortSlice candidates scoreLess = c :: rest) :
    c ∈ candidates ∧ ∀ c' ∈ candidates, c'.Score ≤ c.Score := by
  have hperm := S.perm candidates scoreLess
  have hsorted := S.sorted candidates scoreLess scoreLess_irrefl scoreLess_trans
    scoreLess_negtrans
  rw [h] at hperm hsorted
  refine ⟨hperm.mem_iff.mp (List.mem_cons_self c rest), ?_⟩
  intro c' hc'
  have hmem : c' ∈ c :: rest := hperm.mem_iff.mpr hc'
  rcases List.mem_cons.mp hmem with rfl | hrest
  · exact le_refl _
  · have := (List.pairwise_cons.mp hsorted).1 c' hrest
    simpa [scoreLess] using this

theorem contentState_nil (S : SliceSorter) (post : Thing) :
    contentState S post [] =
      { PostCommentCount := post.NumComments, PostScore := post.Score, CommentID := "",
        CommentAuthor := "", CommentBody := "", CommentAge := 0, CommentScore := 0 } := by
  have h : S.sortSlice [] scoreLess = [] := List.Perm.eq_nil (S.perm [] scoreLess)
  simp [contentState, h]

theorem contentState_cons (S : SliceSorter) (post : Thing) (candidates : List Thing)
    (hne : candidates ≠ []) :
    ∃ c ∈ candidates, (∀ c' ∈ candidates, c'.Score ≤ c.Score) ∧
      contentState S post candidates =
        { PostCommentCount := post.NumComments, PostScore := post.Score, CommentID := c.ID,
          CommentAuthor := c.Author, CommentBody := c.Body, CommentAge := unix c.CreatedAt,
          CommentScore := c.Score } := by
  cases hs : S.sortSlice candidates scoreLess with
  | nil =>
    have hperm := S.perm candidates scoreLess
    rw [hs] at hperm
    exact absurd (List.Perm.eq_nil hperm.symm) hne
  | cons c rest =>
    obtain ⟨hmem, hmax⟩ := sortSlice_head S candidates c rest hs
    exact ⟨c, hmem, hmax, by simp [contentState, hs]⟩

theorem mem_afterPush (now : Int) (p : String) (la : LiveActivity) (res : Except String Response)
    (e : Event) (h : e ∈ afterPush now p la res) : e = Event.repoDelete p := by
  unfold afterPush at h
  rcases List.mem_append.mp h with h | h
  · cases res with
    | error _ => simpa using h
    | ok r =>
      by_cases hs : r.Sent = true
      · simp [hs] at h
      · simpa [hs] using h
  · by_cases hexp : la.ExpiresAt < now
    · simpa [hexp] using h
    · simp [hexp] at h

/-- The activity and client of the comment fetch agree with the loaded activity
on everything but the tokens, and only the load, the refresh and the update
precede the fetch. -/
theorem consumeBody_fetch (S : SliceSorter) (w : World) (p : String) :
    (∃ e, w.liveActivityRepoGet p = .error e ∧
      consumeBody S w p = [Event.repoGet p (.error e)]) ∨
    (∃ la err, w.liveActivityRepoGet p = .ok la ∧
      la.TokenExpiresAt < w.now + 5 * Minute ∧
      w.RefreshTokens (NewAuthenticatedClient la.RedditAccountID la.RefreshToken la.AccessToken)
        = .error err ∧
      consumeBody S w p =
        Event.repoGet p (.ok la) ::
        Event.refreshTokens
          (NewAuthenticatedClient la.RedditAccountID la.RefreshToken la.AccessToken)
          (.error err) ::
        (if err = RedditError.ErrOauthRevoked then [Event.repoDelete p] else [])) ∨
    (∃ la0 la rac pre, w.liveActivityRepoGet p = .ok la0 ∧
      la.APNSToken = la0.APNSToken ∧ la.Development = la0.Development ∧
      la.ExpiresAt = la0.ExpiresAt ∧ la.Subreddit = la0.Subreddit ∧
      la.ThreadID = la0.ThreadID ∧
      (∀ e ∈ pre, e = Event.repoGet p (.ok la0) ∨
        (∃ rac0 tokens, e = Event.refreshTokens rac0 (.ok tokens)) ∨ e = Event.repoUpdate la) ∧
      consumeBody S w p = pre ++ fetchAndPush S w p la rac) := by
  rcases consumeBody_cases S w p with h | h | ⟨la, tokens, hget, _, _, hbody⟩ | ⟨la, hget, _, hbody⟩
  · exact Or.inl h
  · exact Or.inr (Or.inl h)
  · right; right
    refine ⟨la,
      { la with
        AccessToken := tokens.AccessToken
        RefreshToken := tokens.RefreshToken
        TokenExpiresAt := w.now + tokens.Expiry },
      NewAuthenticatedClient la.RedditAccountID tokens.RefreshToken tokens.AccessToken,
      [Event.repoGet p (.ok la),
       Event.refreshTokens
        (NewAuthenticatedClient la.RedditAccountID la.RefreshToken la.AccessToken) (.ok tokens),
       Event.repoUpdate { la with
        AccessToken := tokens.AccessToken
        RefreshToken := tokens.RefreshToken
        TokenExpiresAt := w.now + tokens.Expiry }],
      hget, rfl, rfl, rfl, rfl, rfl, ?_, ?_⟩
    · intro e he
      simp only [List.mem_cons, List.mem_singleton, List.not_mem_nil, or_false] at he
      rcases he with rfl | rfl | rfl
      · exact Or.inl rfl
      · exact Or.inr (Or.inl ⟨_, _, rfl⟩)
      · exact Or.inr (Or.inr rfl)
    · simpa using hbody
  · right; right
    refine ⟨la, la,
      NewAuthenticatedClient la.RedditAccountID la.RefreshToken la.AccessToken,
      [Event.repoGet p (.ok la)], hget, rfl, rfl, rfl, rfl, rfl, ?_, ?_⟩
    · intro e he
      simp only [List.mem_singleton] at he
      exact Or.inl he
    · simpa using hbody

/-- The five ways a run can go, each with the calls it makes. -/
theorem Consume_paths (S : SliceSorter) (w : World) (p : String) :
    (∃ e, w.liveActivityRepoGet p = .error e ∧
      Consume S w p = [Event.redisPTTL (lockKey p), Event.repoGet p (.error e), Event.ack,
        Event.redisDel (lockKey p)]) ∨
    (∃ la err, w.liveActivityRepoGet p = .ok la ∧
      la.TokenExpiresAt < w.now + 5 * Minute ∧
      Consume S w p =
        Event.redisPTTL (lockKey p) :: Event.repoGet p (.ok la) ::
        Event.refreshTokens
          (NewAuthenticatedClient la.RedditAccountID la.RefreshToken la.AccessToken)
          (.error err) ::
        ((if err = RedditError.ErrOauthRevoked then [Event.repoDelete p] else [])
          ++ [Event.ack, Event.redisDel (lockKey p)])) ∨
    (∃ la0 la rac pre, w.liveActivityRepoGet p = .ok la0 ∧
      la.APNSToken = la0.APNSToken ∧ la.Development = la0.Development ∧
      la.ExpiresAt = la0.ExpiresAt ∧ la.Subreddit = la0.Subreddit ∧
      la.ThreadID = la0.ThreadID ∧
      (∀ e ∈ pre, e = Event.repoGet p (.ok la0) ∨
        (∃ rac0 tokens, e = Event.refreshTokens rac0 (.ok tokens)) ∨ e = Event.repoUpdate la) ∧
      ((∃ err,
        Consume S w p = Event.redisPTTL (lockKey p) :: (pre ++
          Event.topLevelComments rac la.Subreddit la.ThreadID (.error err) ::
          ((if err = RedditError.ErrOauthRevoked then [Event.repoDelete p] else [])
            ++ [Event.ack, Event.redisDel (lockKey p)]))) ∨
      (∃ tr, selectCandidates w.now w.LiveActivityCheckInterval tr.Children = [] ∧
        w.now < la.ExpiresAt ∧
        Consume S w p = Event.redisPTTL (lockKey p) :: (pre ++
          [Event.topLevelComments rac la.Subreddit la.ThreadID (.ok tr), Event.ack,
            Event.redisDel (lockKey p)])) ∨
      (∃ tr n res,
        ¬ (selectCandidates w.now w.LiveActivityCheckInterval tr.Children = [] ∧
          w.now < la.ExpiresAt) ∧
        n = buildNotification w.now la (contentState S tr.Post
            (selectCandidates w.now w.LiveActivityCheckInterval tr.Children)) ∧
        res = w.PushWithContext la.Development n ∧
        Consume S w p = Event.redisPTTL (lockKey p) :: (pre ++
          Event.topLevelComments rac la.Subreddit la.ThreadID (.ok tr) ::
          Event.apnsPush la.Development n res ::
          (afterPush w.now p la res ++ [Event.ack, Event.redisDel (lockKey p)]))))) := by
  rcases consumeBody_fetch S w p with ⟨e, hget, hbody⟩ | ⟨la, err, hget, hexp, _, hbody⟩ |
    ⟨la0, la, rac, pre, hget, h1, h2, h3, h4, h5, hpre, hbody⟩
  · exact Or.inl ⟨e, hget, by simp [Consume, hbody]⟩
  · exact Or.inr (Or.inl ⟨la, err, hget, hexp, by simp [Consume, hbody]⟩)
  · right; right
    refine ⟨la0, la, rac, pre, hget, h1, h2, h3, h4, h5, hpre, ?_⟩
    rcases fetchAndPush_cases S w p la rac with ⟨err, _, hfp⟩ | ⟨tr, _, hc, hexp, hfp⟩ |
      ⟨tr, _, hc, hfp⟩
    · exact Or.inl ⟨err, by simp [Consume, hbody, hfp]⟩
    · exact Or.inr (Or.inl ⟨tr, hc, hexp, by simp [Consume, hbody, hfp]⟩)
    · exact Or.inr (Or.inr ⟨tr, _, _, hc, rfl, rfl, by simp [Consume, hbody, hfp]⟩)

/-- A run that pushed went through the load, the fetch and the push, in this shape. -/
theorem push_inv (S : SliceSorter) (w : World) (p : String) (d : Bool) (n : Notification)
    (res : Except String Response) (hpush : Event.apnsPush d n res ∈ Consume S w p) :
    ∃ la0 la rac pre tr, w.liveActivityRepoGet p = .ok la0 ∧
      la.APNSToken = la0.APNSToken ∧ la.Development = la0.Development ∧
      la.ExpiresAt = la0.ExpiresAt ∧
      (∀ e ∈ pre, e = Event.repoGet p (.ok la0) ∨
        (∃ rac0 tokens, e = Event.refreshTokens rac0 (.ok tokens)) ∨ e = Event.repoUpdate la) ∧
      ¬ (selectCandidates w.now w.LiveActivityCheckInterval tr.Children = [] ∧
          w.now < la.ExpiresAt) ∧
      d = la.Development ∧
      n = buildNotification w.now la (contentState S tr.Post
            (selectCandidates w.now w.LiveActivityCheckInterval tr.Children)) ∧
      res = w.PushWithContext la.Development n ∧
      Consume S w p = Event.redisPTTL (lockKey p) :: (pre ++
          Event.topLevelComments rac la.Subreddit la.ThreadID (.ok tr) ::
          Event.apnsPush d n res ::
          (afterPush w.now p la res ++ [Event.ack, Event.redisDel (lockKey p)])) := by
  rcases Consume_paths S w p with ⟨e, _, hrun⟩ | ⟨la, err, _, _, hrun⟩ |
    ⟨la0, la, rac, pre, hget, h1, h2, h3, _, _, hpre, hrun⟩
  · rw [hrun] at hpush
    simp at hpush
  · rw [hrun] at hpush
    by_cases herr : err = RedditError.ErrOauthRevoked <;> simp [herr] at hpush
  · have hprepush : Event.apnsPush d n res ∉ pre := by
      intro hmem
      rcases hpre _ hmem with h | ⟨_, _, h⟩ | h <;> cases h
    rcases hrun with ⟨err, hrun⟩ | ⟨tr, _, _, hrun⟩ | ⟨tr, n', res', hq, hn, hres, hrun⟩
    · rw [hrun] at hpush
      by_cases herr : err = RedditError.ErrOauthRevoked <;> simp [herr, hprepush] at hpush
    · rw [hrun] at hpush
      simp [hprepush] at hpush
    · have hpush' := hpush
      rw [hrun] at hpush'
      have hafter : Event.apnsPush d n res ∉ afterPush w.now p la res' := by
        intro hmem
        cases mem_afterPush _ _ _ _ _ hmem
      simp [hprepush, hafter] at hpush'
      obtain ⟨hd, hnn, hrr⟩ := hpush'
      subst hd hnn hrr
      exact ⟨la0, la, rac, pre, tr, hget, h1, h2, h3, hpre, hq, rfl, hn, hres, hrun⟩

/-- A run whose comment fetch succeeded either stopped there, the thread being
quiet and the activity not expired, or went on to push. -/
theorem fetch_ok_inv (S : SliceSorter) (w : World) (p : String) (rac : AuthenticatedClient)
    (sub th : String) (tr : ThreadResponse)
    (hfetch : Event.topLevelComments rac sub th (.ok tr) ∈ Consume S w p) :
    ∃ la0 la pre, w.liveActivityRepoGet p = .ok la0 ∧
      la.APNSToken = la0.APNSToken ∧ la.Development = la0.Development ∧
      la.ExpiresAt = la0.ExpiresAt ∧
      (∀ e ∈ pre, e = Event.repoGet p (.ok la0) ∨
        (∃ rac0 tokens, e = Event.refreshTokens rac0 (.ok tokens)) ∨ e = Event.repoUpdate la) ∧
      ((selectCandidates w.now w.LiveActivityCheckInterval tr.Children = [] ∧
        w.now < la.ExpiresAt ∧
        Consume S w p = Event.redisPTTL (lockKey p) :: (pre ++
          [Event.topLevelComments rac sub th (.ok tr), Event.ack,
            Event.redisDel (lockKey p)])) ∨
      (∃ n res,
        ¬ (selectCandidates w.now w.LiveActivityCheckInterval tr.Children = [] ∧
          w.now < la.ExpiresAt) ∧
        n = buildNotification w.now la (contentState S tr.Post
            (selectCandidates w.now w.LiveActivityCheckInterval tr.Children)) ∧
        res = w.PushWithContext la.Development n ∧
        Consume S w p = Event.redisPTTL (lockKey p) :: (pre ++
          Event.topLevelComments rac sub th (.ok tr) ::
          Event.apnsPush la.Development n res ::
          (afterPush w.now p la res ++ [Event.ack, Event.redisDel (lockKey p)])))) := by
  rcases Consume_paths S w p with ⟨e, _, hrun⟩ | ⟨la, err, _, _, hrun⟩ |
    ⟨la0, la, rac', pre, hget, h1, h2, h3, _, _, hpre, hrun⟩
  · rw [hrun] at hfetch
    simp at hfetch
  · rw [hrun] at hfetch
    by_cases herr : err = RedditError.ErrOauthRevoked <;> simp [herr] at hfetch
  · have hprefetch : Event.topLevelComments rac sub th (.ok tr) ∉ pre := by
      intro hmem
      rcases hpre _ hmem with h | ⟨_, _, h⟩ | h <;> cases h
    refine ⟨la0, la, pre, hget, h1, h2, h3, hpre, ?_⟩
    rcases hrun with ⟨err, hrun⟩ | ⟨tr', hc, hexp, hrun⟩ | ⟨tr', n', res', hq, hn, hres, hrun⟩
    · rw [hrun] at hfetch
      by_cases herr : err = RedditError.ErrOauthRevoked <;> simp [herr, hprefetch] at hfetch
    · have hfetch' := hfetch
      rw [hrun] at hfetch'
      simp [hprefetch] at hfetch'
      obtain ⟨rfl, rfl, rfl, rfl⟩ := hfetch'
      exact Or.inl ⟨hc, hexp, hrun⟩
    · have hfetch' := hfetch
      rw [hrun] at hfetch'
      have hafter : Event.topLevelComments rac sub th (.ok tr) ∉ afterPush w.now p la res' := by
        intro hmem
        cases mem_afterPush _ _ _ _ _ hmem
      simp [hprefetch, hafter] at hfetch'
      obtain ⟨rfl, rfl, rfl, rfl⟩ := hfetch'
      exact Or.inr ⟨n', res', hq, hn, hres, hrun⟩

theorem repoDelete_mem_afterPush_of_expired (now : Int) (p : String) (la : LiveActivity)
    (res : Except String Response) (h : la.ExpiresAt < now) :
    Event.repoDelete p ∈ afterPush now p la res := by
  unfold afterPush
  simp [h]

theorem repoDelete_mem_afterPush_of_unsent (now : Int) (p : String) (la : LiveActivity)
    (res : Except String Response) (h : ∀ r, res = .ok r → r.StatusCode ≠ 200) :
    Event.repoDelete p ∈ afterPush now p la res := by
  unfold afterPush
  cases res with
  | error e => simp
  | ok r =>
    have := h r rfl
    simp [Response.Sent, this]

theorem afterPush_of_sent (now : Int) (p : String) (la : LiveActivity) (r : Response)
    (hs : r.StatusCode = 200) (h : ¬ la.ExpiresAt < now) :
    afterPush now p la (.ok r) = [] := by
  unfold afterPush
  simp [Response.Sent, hs, h]

theorem pre_no_push_no_delete (p : String) (la0 la : LiveActivity) (pre : List Event)
    (hpre : ∀ e ∈ pre, e = Event.repoGet p (.ok la0) ∨
        (∃ rac0 tokens, e = Event.refreshTokens rac0 (.ok tokens)) ∨ e = Event.repoUpdate la) :
    ∀ e ∈ pre, e.isPush = false ∧ e.isRepoDelete = false := by
  intro e he
  rcases hpre e he with rfl | ⟨_, _, rfl⟩ | rfl <;> exact ⟨rfl, rfl⟩

theorem selectCandidates_nil_of_quiet (now interval : Int) (children : List Thing)
    (hI : 0 ≤ interval) (h4 : newerThan now interval 4 children = []) :
    selectCandidates now interval children = [] := by
  have h1 := newerThan_mono now interval hI 1 4 (by decide) children h4
  have h2 := newerThan_mono now interval hI 2 4 (by decide) children h4
  rw [selectCandidates_eq]
  simp [h1, h2, h4]

/-- The comment fetch is the first call of `fetchAndPush`; only pushes and
repository deletes follow it. -/
theorem fetchAndPush_head (S : SliceSorter) (w : World) (p : String) (la : LiveActivity)
    (rac : AuthenticatedClient) :
    ∃ rest, fetchAndPush S w p la rac =
        Event.topLevelComments rac la.Subreddit la.ThreadID
          (w.TopLevelComments rac la.Subreddit la.ThreadID) :: rest ∧
      ∀ e ∈ rest, (∃ d n r, e = Event.apnsPush d n r) ∨ e = Event.repoDelete p := by
  rcases fetchAndPush_cases S w p la rac with ⟨err, hf, hfp⟩ | ⟨tr, hf, _, _, hfp⟩ |
    ⟨tr, hf, _, hfp⟩
  · refine ⟨_, by rw [hfp, hf], ?_⟩
    intro e he
    by_cases h : err = RedditError.ErrOauthRevoked
    · simp [h] at he
      exact Or.inr he
    · simp [h] at he
  · refine ⟨[], by rw [hfp, hf], ?_⟩
    intro e he
    simp at he
  · refine ⟨_, by rw [hfp, hf], ?_⟩
    intro e he
    rcases List.mem_cons.mp he with rfl | he
    · exact Or.inl ⟨_, _, _, rfl⟩
    · exact Or.inr (mem_afterPush _ _ _ _ _ he)

/-- The body of a run makes no call on the delivery or on the lock store. -/
theorem consumeBody_events (S : SliceSorter) (w : World) (p : String) :
    ∀ e ∈ consumeBody S w p, e.isAck = false ∧ e.isReject = false ∧
      ∀ k, e.isRedisDel k = false := by
  intro e he
  rcases consumeBody_fetch S w p with ⟨e', _, hbody⟩ | ⟨la, err, _, _, _, hbody⟩ |
    ⟨la0, la, rac, pre, _, _, _, _, _, _, hpre, hbody⟩
  · rw [hbody] at he
    simp only [List.mem_singleton] at he
    subst he
    exact ⟨rfl, rfl, fun _ => rfl⟩
  · rw [hbody] at he
    by_cases h : err = RedditError.ErrOauthRevoked <;>
      simp only [h, if_true, if_false, List.mem_cons, List.mem_singleton, List.not_mem_nil,
        or_false] at he <;>
      rcases he with rfl | rfl | rfl <;> exact ⟨rfl, rfl, fun _ => rfl⟩
  · rw [hbody] at he
    rcases List.mem_append.mp he with he | he
    · rcases hpre e he with rfl | ⟨_, _, rfl⟩ | rfl <;> exact ⟨rfl, rfl, fun _ => rfl⟩
    · obtain ⟨rest, hfp, hrest⟩ := fetchAndPush_head S w p la rac
      rw [hfp] at he
      rcases List.mem_cons.mp he with rfl | he
      · exact ⟨rfl, rfl, fun _ => rfl⟩
      · rcases hrest e he with ⟨_, _, _, rfl⟩ | rfl <;> exact ⟨rfl, rfl, fun _ => rfl⟩

/-! ## Claims -/

/-- C1: for a non-negative check interval, the candidates left by the cutoff
loop are exactly the comments created after `now - k * interval`, in fetched
order and none taken twice, for the smallest `k` among 1, 2 and 4 for which
some comment qualifies; they are empty when no comment is newer than
`now - 4 * interval`. -/
theorem C1_candidates_escalating_cutoff (now interval : Int) (children : List Thing)
    (hI : 0 ≤ interval) :
    (∀ k ∈ ([1, 2, 4] : List Int), newerThan now interval k children ≠ [] →
      (∀ j ∈ ([1, 2, 4] : List Int), j < k → newerThan now interval j children = []) →
      selectCandidates now interval children = newerThan now interval k children) ∧
    (newerThan now interval 4 children = [] → selectCandidates now interval children = []) ∧
    (selectCandidates now interval children).Sublist children := by
  refine ⟨?_, ?_, ?_⟩
  · intro k hk hne hsmall
    rw [selectCandidates_eq]
    simp only [List.mem_cons, List.mem_singleton, List.not_mem_nil, or_false] at hk
    rcases hk with rfl | rfl | rfl
    · simp [hne]
    · have h1 := hsmall 1 (by simp) (by decide)
      simp [h1, hne]
    · have h1 := hsmall 1 (by simp) (by decide)
      have h2 := hsmall 2 (by simp) (by decide)
      simp [h1, h2]
  · exact selectCandidates_nil_of_quiet now interval children hI
  · rw [selectCandidates_eq]
    split
    · exact List.filter_sublist _
    · split
      · exact List.filter_sublist _
      · exact List.filter_sublist _

/-- C1 at a thread whose newest comments are 10, 15 and 100 seconds old, with a
30-second interval: the first cutoff already selects the first two. -/
theorem C1_candidates_escalating_cutoff_witness :
    (0 : Int) ≤ 30 * Second ∧
    selectCandidates (1000 * Second) (30 * Second) exThread.Children
      = [exComment "c1" 990 5, exComment "c2" 985 9] :=
  ⟨by decide,
    ((C1_candidates_escalating_cutoff (1000 * Second) (30 * Second) exThread.Children
      (by decide)).1 1 (by simp) (by decide) (by simp)).trans (by decide)⟩

/-- C2: in a run that fetched the thread `tr` and pushed the notification `n`,
the content-state of `n` carries the post's comment count and score; when the
candidate set is non-empty its comment fields are those of a candidate whose
score is at least that of every candidate, and when the candidate set is empty
its comment fields are all zero values. -/
theorem C2_content_state_highest_score (S : SliceSorter) (w : World) (p : String)
    (rac : AuthenticatedClient) (sub th : String) (tr : ThreadResponse) (d : Bool)
    (n : Notification) (res : Except String Response)
    (hfetch : Event.topLevelComments rac sub th (.ok tr) ∈ Consume S w p)
    (hpush : Event.apnsPush d n res ∈ Consume S w p) :
    ∃ din, n.aps "content-state" = some (ApsValue.contentState din) ∧
      din.PostCommentCount = tr.Post.NumComments ∧ din.PostScore = tr.Post.Score ∧
      (selectCandidates w.now w.LiveActivityCheckInterval tr.Children ≠ [] →
        ∃ c ∈ selectCandidates w.now w.LiveActivityCheckInterval tr.Children,
          (∀ c' ∈ selectCandidates w.now w.LiveActivityCheckInterval tr.Children,
            c'.Score ≤ c.Score) ∧
          din.CommentID = c.ID ∧ din.CommentAuthor = c.Author ∧ din.CommentBody = c.Body ∧
          din.CommentAge = unix c.CreatedAt ∧ din.CommentScore = c.Score) ∧
      (selectCandidates w.now w.LiveActivityCheckInterval tr.Children = [] →
        din.CommentID = "" ∧ din.CommentAuthor = "" ∧ din.CommentBody = "" ∧
          din.CommentAge = 0 ∧ din.CommentScore = 0) := by
  rcases Consume_paths S w p with ⟨e, _, hrun⟩ | ⟨la, err, _, _, hrun⟩ |
    ⟨la0, la, rac', pre, _, _, _, _, _, _, hpre, hrun⟩
  · rw [hrun] at hpush
    simp at hpush
  · rw [hrun] at hpush
    by_cases herr : err = RedditError.ErrOauthRevoked <;> simp [herr] at hpush
  · have hprepush : Event.apnsPush d n res ∉ pre := by
      intro hmem
      rcases hpre _ hmem with h | ⟨_, _, h⟩ | h <;> cases h
    have hprefetch : Event.topLevelComments rac sub th (.ok tr) ∉ pre := by
      intro hmem
      rcases hpre _ hmem with h | ⟨_, _, h⟩ | h <;> cases h
    rcases hrun with ⟨err, hrun⟩ | ⟨tr', _, _, hrun⟩ | ⟨tr', n', res', _, hn, _, hrun⟩
    · rw [hrun] at hpush
      by_cases herr : err = RedditError.ErrOauthRevoked <;> simp [herr, hprepush] at hpush
    · rw [hrun] at hpush
      simp [hprepush] at hpush
    · rw [hrun] at hpush hfetch
      have hafter1 : Event.apnsPush d n res ∉ afterPush w.now p la res' := by
        intro hmem
        cases mem_afterPush _ _ _ _ _ hmem
      have hafter2 : Event.topLevelComments rac sub th (.ok tr) ∉ afterPush w.now p la res' := by
        intro hmem
        cases mem_afterPush _ _ _ _ _ hmem
      simp [hprepush, hafter1] at hpush
      simp [hprefetch, hafter2] at hfetch
      obtain ⟨-, hnn, -⟩ := hpush
      obtain ⟨-, -, -, rfl⟩ := hfetch
      subst hnn hn
      refine ⟨contentState S tr.Post
        (selectCandidates w.now w.LiveActivityCheckInterval tr.Children),
        by simp [Notification.aps, buildNotification, List.lookup], ?_⟩
      by_cases hc : selectCandidates w.now w.LiveActivityCheckInterval tr.Children = []
      · rw [hc, contentState_nil]
        simp
      · obtain ⟨c, hmem, hmax, hdin⟩ := contentState_cons S tr.Post _ hc
        rw [hdin]
        refine ⟨rfl, rfl, fun _ => ⟨c, hmem, hmax, rfl, rfl, rfl, rfl, rfl⟩, fun h => absurd h hc⟩

/-- C2 at the example run: the pushed content-state names a candidate of
greatest score. -/
theorem C2_content_state_highest_score_witness :
    ∃ din c, exUpdateNotification.aps "content-state" = some (ApsValue.contentState din) ∧
      c ∈ selectCandidates exUpdateWorld.now exUpdateWorld.LiveActivityCheckInterval
        exThread.Children ∧
      (∀ c' ∈ selectCandidates exUpdateWorld.now exUpdateWorld.LiveActivityCheckInterval
        exThread.Children, c'.Score ≤ c.Score) ∧
      din.CommentID = c.ID ∧ din.CommentScore = c.Score := by
  obtain ⟨din, h1, _, _, hne, _⟩ :=
    C2_content_state_highest_score insertionSorter exUpdateWorld "LA1" exClient "sub" "thread"
      exThread false exUpdateNotification (.ok exSent) (by decide) (by decide)
  obtain ⟨c, hc, hmax, hid, _, _, _, hs⟩ := hne (by decide)
  exact ⟨din, c, h1, hc, hmax, hid, hs⟩

/-- C3, evaluated where it fails: for an activity whose `expires_at` equals
`now`, on a thread without comments, the run pushes event "update" (with empty
comment fields) and does not delete the activity. -/
theorem C3_event_at_expiry_instant :
    (exActivity 5000 1000).ExpiresAt = exBoundaryWorld.now ∧
    Consume insertionSorter exBoundaryWorld "LA1" =
      [Event.redisPTTL "locks:live-activities:LA1",
       Event.repoGet "LA1" (.ok (exActivity 5000 1000)),
       Event.topLevelComments exClient "sub" "thread" (.ok { Post := exPost, Children := [] }),
       Event.apnsPush false
         { DeviceToken := "LA1"
           Topic := "com.christianselig.Apollo.push-type.liveactivity"
           PushType := "liveactivity"
           Payload :=
            [("aps",
              [("content-state", ApsValue.contentState
                  { PostCommentCount := 3, PostScore := 120, CommentID := "",
                    CommentAuthor := "", CommentBody := "", CommentAge := 0,
                    CommentScore := 0 }),
               ("dismissal-date", ApsValue.number 1000),
               ("event", ApsValue.text "update"),
               ("timestamp", ApsValue.number 1000)])] }
         (.ok exSent),
       Event.ack,
       Event.redisDel "locks:live-activities:LA1"] := by
  decide

/-- C4 as stated fails: an activity loaded one second after its expiry, whose
comment fetch is rate limited, gets no push at all (and is not deleted). -/
theorem C4_counterexample :
    (exExpiredWorld (.error RedditError.ErrRateLimited)).liveActivityRepoGet "LA1"
      = .ok (exActivity 5000 999) ∧
    (exActivity 5000 999).ExpiresAt ≤ (exExpiredWorld (.error RedditError.ErrRateLimited)).now ∧
    (Consume insertionSorter (exExpiredWorld (.error RedditError.ErrRateLimited)) "LA1").countP
      Event.isPush = 0 ∧
    Event.repoDelete "LA1" ∉
      Consume insertionSorter (exExpiredWorld (.error RedditError.ErrRateLimited)) "LA1" := by
  decide

/-- C4, amended: for every live activity loaded with `expires_at < now` whose
comment fetch succeeds, the run issues exactly one APNs push, with the client
chosen by the activity's development flag; that push has event "end"; no
repository delete precedes it and the activity is deleted after it. -/
theorem C4_expired_activity_ends_once (S : SliceSorter) (w : World) (p : String)
    (la : LiveActivity) (rac : AuthenticatedClient) (sub th : String) (tr : ThreadResponse)
    (hload : w.liveActivityRepoGet p = .ok la) (hexp : la.ExpiresAt < w.now)
    (hfetch : Event.topLevelComments rac sub th (.ok tr) ∈ Consume S w p) :
    ∃ before n res after,
      Consume S w p = before ++ Event.apnsPush la.Development n res :: after ∧
      (∀ e ∈ before, e.isPush = false ∧ e.isRepoDelete = false) ∧
      (∀ e ∈ after, e.isPush = false) ∧
      n.aps "event" = some (ApsValue.text "end") ∧
      Event.repoDelete p ∈ after := by
  obtain ⟨la0, la', pre, hget, _, h2, h3, hpre, hrun⟩ := fetch_ok_inv S w p rac sub th tr hfetch
  rw [hload] at hget
  cases hget
  have hexp' : la'.ExpiresAt < w.now := by rw [h3]; exact hexp
  rcases hrun with ⟨_, hlive, _⟩ | ⟨n, res, _, hn, _, hrun⟩
  · omega
  · refine ⟨Event.redisPTTL (lockKey p) :: (pre ++ [Event.topLevelComments rac sub th (.ok tr)]),
      n, res, afterPush w.now p la' res ++ [Event.ack, Event.redisDel (lockKey p)], ?_, ?_, ?_,
      ?_, ?_⟩
    · rw [hrun, h2]
      simp
    · intro e he
      simp only [List.mem_cons, List.mem_append, List.mem_singleton, List.not_mem_nil,
        or_false] at he
      rcases he with rfl | he | rfl
      · exact ⟨rfl, rfl⟩
      · exact pre_no_push_no_delete p la la' pre hpre e he
      · exact ⟨rfl, rfl⟩
    · intro e he
      simp only [List.mem_cons, List.mem_append, List.mem_singleton, List.not_mem_nil,
        or_false] at he
      rcases he with he | rfl | rfl
      · rw [mem_afterPush _ _ _ _ _ he]
        rfl
      · rfl
      · rfl
    · subst hn
      simp [Notification.aps, buildNotification, List.lookup, apnsEvent, hexp']
    · exact List.mem_append_left _ (repoDelete_mem_afterPush_of_expired _ _ _ _ hexp')

/-- C4 (amended) at the example activity, expired one second before the run. -/
theorem C4_expired_activity_ends_once_witness :
    ∃ before n res after,
      Consume insertionSorter (exExpiredWorld (.ok exThread)) "LA1"
        = before ++ Event.apnsPush false n res :: after ∧
      (∀ e ∈ before, e.isPush = false ∧ e.isRepoDelete = false) ∧
      (∀ e ∈ after, e.isPush = false) ∧
      n.aps "event" = some (ApsValue.text "end") ∧
      Event.repoDelete "LA1" ∈ after :=
  C4_expired_activity_ends_once insertionSorter (exExpiredWorld (.ok exThread)) "LA1"
    (exActivity 5000 999) exClient "sub" "thread" exThread (by decide) (by decide) (by decide)

/-- C5 as stated fails: for an activity that has not expired, a push that
returns a transport error, and a push answered with status 503, are each
followed by the deletion of the activity. -/
theorem C5_counterexample :
    (exPushWorld (.error "connection reset")).now < (exActivity 5000 2000).ExpiresAt ∧
    Event.apnsPush false exUpdateNotification (.error "connection reset") ∈
      Consume insertionSorter (exPushWorld (.error "connection reset")) "LA1" ∧
    Event.repoDelete "LA1" ∈
      Consume insertionSorter (exPushWorld (.error "connection reset")) "LA1" ∧
    Event.apnsPush false exUpdateNotification (.ok exUnavailable) ∈
      Consume insertionSorter (exPushWorld (.ok exUnavailable)) "LA1" ∧
    Event.repoDelete "LA1" ∈ Consume insertionSorter (exPushWorld (.ok exUnavailable)) "LA1" := by
  decide

/-- C5, amended: for every live activity that has not expired, when the APNs
push returns a transport error or a response that was not sent (any status
other than 200, whatever its reason, status 500 and above included), the live
activity is deleted after the push; it is left in the repository exactly when
the push was sent. No delete precedes the push. -/
theorem C5_unsent_push_deletes (S : SliceSorter) (w : World) (p : String) (la : LiveActivity)
    (d : Bool) (n : Notification) (res : Except String Response)
    (hload : w.liveActivityRepoGet p = .ok la) (hlive : w.now < la.ExpiresAt)
    (hpush : Event.apnsPush d n res ∈ Consume S w p) :
    ∃ before after, Consume S w p = before ++ Event.apnsPush d n res :: after ∧
      (∀ e ∈ before, e.isRepoDelete = false) ∧
      ((∃ r, res = .ok r ∧ r.StatusCode = 200) → ∀ e ∈ after, e.isRepoDelete = false) ∧
      ((¬ ∃ r, res = .ok r ∧ r.StatusCode = 200) → Event.repoDelete p ∈ after) := by
  obtain ⟨la0, la', rac, pre, tr, hget, _, _, h3, hpre, _, _, _, _, hrun⟩ :=
    push_inv S w p d n res hpush
  rw [hload] at hget
  cases hget
  have hlive' : ¬ la'.ExpiresAt < w.now := by rw [h3]; omega
  refine ⟨Event.redisPTTL (lockKey p) ::
      (pre ++ [Event.topLevelComments rac la'.Subreddit la'.ThreadID (.ok tr)]),
    afterPush w.now p la' res ++ [Event.ack, Event.redisDel (lockKey p)], ?_, ?_, ?_, ?_⟩
  · rw [hrun]
    simp
  · intro e he
    simp only [List.mem_cons, List.mem_append, List.mem_singleton, List.not_mem_nil,
      or_false] at he
    rcases he with rfl | he | rfl
    · rfl
    · exact (pre_no_push_no_delete p la la' pre hpre e he).2
    · rfl
  · rintro ⟨r, rfl, hr⟩ e he
    rw [afterPush_of_sent _ _ _ _ hr hlive'] at he
    simp only [List.nil_append, List.mem_cons, List.mem_singleton, List.not_mem_nil,
      or_false] at he
    rcases he with rfl | rfl <;> rfl
  · intro hns
    refine List.mem_append_left _ (repoDelete_mem_afterPush_of_unsent _ _ _ _ ?_)
    intro r hr h200
    exact hns ⟨r, hr, h200⟩

/-- C5 (amended) at a push answered with status 503 for an activity that has
not expired: the activity is deleted after the push. -/
theorem C5_unsent_push_deletes_witness :
    ∃ before after,
      Consume insertionSorter (exPushWorld (.ok exUnavailable)) "LA1"
        = before ++ Event.apnsPush false exUpdateNotification (.ok exUnavailable) :: after ∧
      (∀ e ∈ before, e.isRepoDelete = false) ∧ Event.repoDelete "LA1" ∈ after := by
  obtain ⟨before, after, h1, h2, _, h4⟩ :=
    C5_unsent_push_deletes insertionSorter (exPushWorld (.ok exUnavailable)) "LA1"
      (exActivity 5000 2000) false exUpdateNotification (.ok exUnavailable) (by decide)
      (by decide) (by decide)
  refine ⟨before, after, h1, h2, h4 ?_⟩
  rintro ⟨r, hr, h200⟩
  cases hr
  exact absurd h200 (by decide)

/-- C6: for every live activity with `expires_at` after `now` and a
non-negative check interval, if the fetched thread has no top-level comment
created after `now - 4 * LiveActivityCheckInterval`, the run issues no APNs
push and no repository delete. -/
theorem C6_quiet_thread_emits_nothing (S : SliceSorter) (w : World) (p : String)
    (la : LiveActivity) (rac : AuthenticatedClient) (sub th : String) (tr : ThreadResponse)
    (hload : w.liveActivityRepoGet p = .ok la) (hlive : w.now < la.ExpiresAt)
    (hI : 0 ≤ w.LiveActivityCheckInterval)
    (hfetch : Event.topLevelComments rac sub th (.ok tr) ∈ Consume S w p)
    (hquiet : newerThan w.now w.LiveActivityCheckInterval 4 tr.Children = []) :
    ∀ e ∈ Consume S w p, e.isPush = false ∧ e.isRepoDelete = false := by
  obtain ⟨la0, la', pre, hget, _, _, h3, hpre, hrun⟩ := fetch_ok_inv S w p rac sub th tr hfetch
  rw [hload] at hget
  cases hget
  have hc := selectCandidates_nil_of_quiet w.now w.LiveActivityCheckInterval tr.Children hI hquiet
  rcases hrun with ⟨_, _, hrun⟩ | ⟨n, res, hq, _, _, _⟩
  · intro e he
    rw [hrun] at he
    simp only [List.mem_cons, List.mem_append, List.mem_singleton, List.not_mem_nil,
      or_false] at he
    rcases he with rfl | he | rfl | rfl | rfl
    · exact ⟨rfl, rfl⟩
    · exact pre_no_push_no_delete p la la' pre hpre e he
    · exact ⟨rfl, rfl⟩
    · exact ⟨rfl, rfl⟩
    · exact ⟨rfl, rfl⟩
  · exact absurd ⟨hc, by rw [h3]; exact hlive⟩ hq

/-- C6 at a thread whose only comment is 200 seconds old, with a 30-second
interval and an activity that expires later. -/
theorem C6_quiet_thread_emits_nothing_witness :
    newerThan exQuietWorld.now exQuietWorld.LiveActivityCheckInterval 4 exQuietThread.Children
      = [] ∧
    ∀ e ∈ Consume insertionSorter exQuietWorld "LA1", e.isPush = false ∧ e.isRepoDelete = false :=
  ⟨by decide,
    C6_quiet_thread_emits_nothing insertionSorter exQuietWorld "LA1" (exActivity 5000 2000)
      exClient "sub" "thread" exQuietThread (by decide) (by decide) (by decide) (by decide)
      (by decide)⟩

/-- C7: whenever `RefreshTokens` or `TopLevelComments` returns an error in a
run, that run issues no APNs push; when the error is `ErrOauthRevoked` the
live activity is deleted, and for any other error (rate limiting included) the
run makes no repository delete. -/
theorem C7_upstream_error_no_push (S : SliceSorter) (w : World) (p : String)
    (err : RedditError)
    (herr : (∃ rac, Event.refreshTokens rac (.error err) ∈ Consume S w p) ∨
      (∃ rac sub th, Event.topLevelComments rac sub th (.error err) ∈ Consume S w p)) :
    (∀ e ∈ Consume S w p, e.isPush = false) ∧
    (err = RedditError.ErrOauthRevoked → Event.repoDelete p ∈ Consume S w p) ∧
    (err ≠ RedditError.ErrOauthRevoked → ∀ e ∈ Consume S w p, e.isRepoDelete = false) := by
  rcases Consume_paths S w p with ⟨e, _, hrun⟩ | ⟨la, err', _, _, hrun⟩ |
    ⟨la0, la, rac', pre, _, _, _, _, _, _, hpre, hrun⟩
  · rw [hrun] at herr
    simp at herr
  · have herr' : err' = err := by
      rw [hrun] at herr
      by_cases h : err' = RedditError.ErrOauthRevoked
      · subst h
        simp at herr
        first | exact herr | exact herr.symm
      · simp [h] at herr
        first | exact herr | exact herr.symm
    subst herr'
    rw [hrun]
    by_cases h : err' = RedditError.ErrOauthRevoked
    · simp [h, Event.isPush]
    · simp [h, Event.isPush, Event.isRepoDelete]
  · have hpre1 : ∀ rac, Event.refreshTokens rac (.error err) ∉ pre := by
      intro rac hmem
      rcases hpre _ hmem with h | ⟨_, _, h⟩ | h <;> cases h
    have hpre2 : ∀ rac sub th, Event.topLevelComments rac sub th (.error err) ∉ pre := by
      intro rac sub th hmem
      rcases hpre _ hmem with h | ⟨_, _, h⟩ | h <;> cases h
    have hpre3 := pre_no_push_no_delete p la0 la pre hpre
    rcases hrun with ⟨err', hrun⟩ | ⟨tr, _, _, hrun⟩ | ⟨tr, n, res, _, _, _, hrun⟩
    · have herr' : err' = err := by
        rw [hrun] at herr
        by_cases h : err' = RedditError.ErrOauthRevoked
        · subst h
          simp [hpre1, hpre2] at herr
          first | exact herr | exact herr.symm
        · simp [h, hpre1, hpre2] at herr
          first | exact herr | exact herr.symm
      subst herr'
      rw [hrun]
      refine ⟨?_, ?_, ?_⟩
      · intro e he
        by_cases h : err' = RedditError.ErrOauthRevoked <;>
          simp only [h, if_true, if_false, List.mem_cons, List.mem_append, List.mem_singleton,
            List.not_mem_nil, or_false, false_or] at he <;>
          rcases he with rfl | he | rfl | rfl | rfl | rfl <;>
          first
          | rfl
          | exact (hpre3 e he).1
      · intro h
        simp [h]
      · intro h e he
        simp only [h, if_false, List.mem_cons, List.mem_append, List.mem_singleton,
          List.not_mem_nil, or_false, false_or] at he
        rcases he with rfl | he | rfl | rfl | rfl
        · rfl
        · exact (hpre3 e he).2
        · rfl
        · rfl
        · rfl
    · rw [hrun] at herr
      simp [hpre1, hpre2] at herr
    · rw [hrun] at herr
      have h1 : ∀ rac, Event.refreshTokens rac (.error err) ∉ afterPush w.now p la res := by
        intro rac hmem
        cases mem_afterPush _ _ _ _ _ hmem
      have h2 : ∀ rac sub th,
          Event.topLevelComments rac sub th (.error err) ∉ afterPush w.now p la res := by
        intro rac sub th hmem
        cases mem_afterPush _ _ _ _ _ hmem
      simp [hpre1, hpre2, h1, h2] at herr

/-- C7 at a run whose token refresh is answered with `ErrOauthRevoked`: no
push, and the activity is deleted. -/
theorem C7_upstream_error_no_push_witness :
    (∀ e ∈ Consume insertionSorter
        (exRefreshWorld (.error RedditError.ErrOauthRevoked) (.ok exThread)) "LA1",
      e.isPush = false) ∧
    Event.repoDelete "LA1" ∈ Consume insertionSorter
      (exRefreshWorld (.error RedditError.ErrOauthRevoked) (.ok exThread)) "LA1" := by
  obtain ⟨h1, h2, _⟩ :=
    C7_upstream_error_no_push insertionSorter
      (exRefreshWorld (.error RedditError.ErrOauthRevoked) (.ok exThread)) "LA1"
      RedditError.ErrOauthRevoked (Or.inl ⟨exClient, by decide⟩)
  exact ⟨h1, h2 rfl⟩

/-- C8: for a loaded activity, `RefreshTokens` is called in the run exactly
when `TokenExpiresAt` is earlier than `now` plus five minutes, and then with
the client built from the stored tokens; when it succeeds, the next calls are
the repository update of the activity carrying the returned access and
refresh tokens and `TokenExpiresAt = now + Expiry`, and the comment fetch with
the client built from the returned tokens, and no other refresh, update or
fetch follows. -/
theorem C8_token_refresh (S : SliceSorter) (w : World) (p : String) (la : LiveActivity)
    (hload : w.liveActivityRepoGet p = .ok la) :
    ((∃ e ∈ Consume S w p, e.isRefresh = true) ↔ la.TokenExpiresAt < w.now + 5 * Minute) ∧
    (∀ rac res, Event.refreshTokens rac res ∈ Consume S w p →
      rac = NewAuthenticatedClient la.RedditAccountID la.RefreshToken la.AccessToken) ∧
    (∀ rac tokens, Event.refreshTokens rac (.ok tokens) ∈ Consume S w p →
      ∃ res rest, Consume S w p =
          Event.redisPTTL (lockKey p) :: Event.repoGet p (.ok la) ::
          Event.refreshTokens rac (.ok tokens) ::
          Event.repoUpdate { la with
            AccessToken := tokens.AccessToken
            RefreshToken := tokens.RefreshToken
            TokenExpiresAt := w.now + tokens.Expiry } ::
          Event.topLevelComments
            (NewAuthenticatedClient la.RedditAccountID tokens.RefreshToken tokens.AccessToken)
            la.Subreddit la.ThreadID res :: rest ∧
        ∀ e ∈ rest, e.isRefresh = false ∧ e.isRepoUpdate = false ∧ e.isFetch = false) := by
  have htail : ∀ rest : List Event,
      (∀ e ∈ rest, (∃ d n r, e = Event.apnsPush d n r) ∨ e = Event.repoDelete p) →
      ∀ e ∈ rest ++ [Event.ack, Event.redisDel (lockKey p)],
        e.isRefresh = false ∧ e.isRepoUpdate = false ∧ e.isFetch = false := by
    intro rest hrest e he
    simp only [List.mem_cons, List.mem_append, List.mem_singleton, List.not_mem_nil,
      or_false] at he
    rcases he with he | rfl | rfl
    · rcases hrest e he with ⟨_, _, _, rfl⟩ | rfl <;> exact ⟨rfl, rfl, rfl⟩
    · exact ⟨rfl, rfl, rfl⟩
    · exact ⟨rfl, rfl, rfl⟩
  rcases consumeBody_cases S w p with ⟨e, hget, _⟩ | ⟨la', err, hget, hexp, _, hbody⟩ |
    ⟨la', tokens, hget, hexp, _, hbody⟩ | ⟨la', hget, hexp, hbody⟩
  · rw [hload] at hget
    cases hget
  · rw [hload] at hget
    cases hget
    have hrun : Consume S w p = Event.redisPTTL (lockKey p) :: Event.repoGet p (.ok la) ::
        Event.refreshTokens
          (NewAuthenticatedClient la.RedditAccountID la.RefreshToken la.AccessToken)
          (.error err) ::
        ((if err = RedditError.ErrOauthRevoked then [Event.repoDelete p] else [])
          ++ [Event.ack, Event.redisDel (lockKey p)]) := by
      simp [Consume, hbody]
    refine ⟨⟨fun _ => hexp, fun _ => ⟨Event.refreshTokens
      (NewAuthenticatedClient la.RedditAccountID la.RefreshToken la.AccessToken) (.error err),
      by rw [hrun]; simp, rfl⟩⟩, ?_, ?_⟩
    · intro rac res hmem
      rw [hrun] at hmem
      by_cases h : err = RedditError.ErrOauthRevoked <;> simp [h] at hmem <;> exact hmem.1
    · intro rac tokens hmem
      rw [hrun] at hmem
      by_cases h : err = RedditError.ErrOauthRevoked <;> simp [h] at hmem
  · rw [hload] at hget
    cases hget
    obtain ⟨rest, hfp, hrest⟩ := fetchAndPush_head S w p
      { la with
        AccessToken := tokens.AccessToken
        RefreshToken := tokens.RefreshToken
        TokenExpiresAt := w.now + tokens.Expiry }
      (NewAuthenticatedClient la.RedditAccountID tokens.RefreshToken tokens.AccessToken)
    have htl := htail rest hrest
    have hrun : Consume S w p = Event.redisPTTL (lockKey p) :: Event.repoGet p (.ok la) ::
        Event.refreshTokens
          (NewAuthenticatedClient la.RedditAccountID la.RefreshToken la.AccessToken)
          (.ok tokens) ::
        Event.repoUpdate { la with
          AccessToken := tokens.AccessToken
          RefreshToken := tokens.RefreshToken
          TokenExpiresAt := w.now + tokens.Expiry } ::
        Event.topLevelComments
          (NewAuthenticatedClient la.RedditAccountID tokens.RefreshToken tokens.AccessToken)
          la.Subreddit la.ThreadID
          (w.TopLevelComments
            (NewAuthenticatedClient la.RedditAccountID tokens.RefreshToken tokens.AccessToken)
            la.Subreddit la.ThreadID) ::
        (rest ++ [Event.ack, Event.redisDel (lockKey p)]) := by
      simp [Consume, hbody, hfp]
    have hmem_inv : ∀ rac res, Event.refreshTokens rac res ∈ Consume S w p →
        rac = NewAuthenticatedClient la.RedditAccountID la.RefreshToken la.AccessToken ∧
        res = .ok tokens := by
      intro rac res hmem
      rw [hrun] at hmem
      simp only [List.mem_cons] at hmem
      rcases hmem with h | h | h | h | h | h
      · cases h
      · cases h
      · cases h
        exact ⟨rfl, rfl⟩
      · cases h
      · cases h
      · have := (htl _ h).1
        simp [Event.isRefresh] at this
    refine ⟨⟨fun _ => hexp, fun _ => ⟨Event.refreshTokens
      (NewAuthenticatedClient la.RedditAccountID la.RefreshToken la.AccessToken) (.ok tokens),
      by rw [hrun]; simp, rfl⟩⟩, ?_, ?_⟩
    · intro rac res hmem
      exact (hmem_inv rac res hmem).1
    · intro rac tokens' hmem
      obtain ⟨rfl, htok⟩ := hmem_inv rac _ hmem
      cases htok
      exact ⟨_, _, hrun, htl⟩
  · rw [hload] at hget
    cases hget
    obtain ⟨rest, hfp, hrest⟩ := fetchAndPush_head S w p la
      (NewAuthenticatedClient la.RedditAccountID la.RefreshToken la.AccessToken)
    have htl := htail rest hrest
    have hrun : Consume S w p = Event.redisPTTL (lockKey p) :: Event.repoGet p (.ok la) ::
        Event.topLevelComments
          (NewAuthenticatedClient la.RedditAccountID la.RefreshToken la.AccessToken)
          la.Subreddit la.ThreadID
          (w.TopLevelComments
            (NewAuthenticatedClient la.RedditAccountID la.RefreshToken la.AccessToken)
            la.Subreddit la.ThreadID) ::
        (rest ++ [Event.ack, Event.redisDel (lockKey p)]) := by
      simp [Consume, hbody, hfp]
    have hnone : ∀ e ∈ Consume S w p, e.isRefresh = false := by
      intro e he
      rw [hrun] at he
      simp only [List.mem_cons] at he
      rcases he with rfl | rfl | rfl | he
      · rfl
      · rfl
      · rfl
      · exact (htl e he).1
    refine ⟨⟨?_, fun h => absurd h hexp⟩, ?_, ?_⟩
    · rintro ⟨e, he, hr⟩
      rw [hnone e he] at hr
      cases hr
    · intro rac res hmem
      have := hnone _ hmem
      simp [Event.isRefresh] at this
    · intro rac tokens hmem
      have := hnone _ hmem
      simp [Event.isRefresh] at this

/-- C8 at a run whose stored token expires 200 seconds after `now`: the token
is refreshed, the activity is updated with the new tokens and the comments are
fetched with them. -/
theorem C8_token_refresh_witness :
    ∃ res rest, Consume insertionSorter (exRefreshWorld (.ok exTokens) (.ok exThread)) "LA1" =
      Event.redisPTTL (lockKey "LA1") :: Event.repoGet "LA1" (.ok (exActivity 1200 2000)) ::
      Event.refreshTokens exClient (.ok exTokens) ::
      Event.repoUpdate { exActivity 1200 2000 with
        AccessToken := "access-new"
        RefreshToken := "refresh-new"
        TokenExpiresAt := 1000 * Second + 3600 * Second } ::
      Event.topLevelComments (NewAuthenticatedClient "acct" "refresh-new" "access-new")
        "sub" "thread" res :: rest := by
  obtain ⟨res, rest, hrun, _⟩ :=
    (C8_token_refresh insertionSorter (exRefreshWorld (.ok exTokens) (.ok exThread)) "LA1"
      (exActivity 1200 2000) (by decide)).2.2 exClient exTokens (by decide)
  exact ⟨res, rest, hrun⟩

/-- C9: every run acknowledges the delivery exactly once and deletes the lock
key `locks:live-activities:<payload>` exactly once, as its last two calls; it
deletes no other key and never rejects the delivery or pushes it back. -/
theorem C9_ack_and_unlock_once (S : SliceSorter) (w : World) (p : String) :
    (Consume S w p).countP Event.isAck = 1 ∧
    (Consume S w p).countP (Event.isRedisDel ("locks:live-activities:" ++ p)) = 1 ∧
    (∀ k, Event.redisDel k ∈ Consume S w p → k = "locks:live-activities:" ++ p) ∧
    (Consume S w p).countP Event.isReject = 0 ∧
    ∃ body, Consume S w p =
      body ++ [Event.ack, Event.redisDel ("locks:live-activities:" ++ p)] := by
  have hbody := consumeBody_events S w p
  have hack : (consumeBody S w p).countP Event.isAck = 0 :=
    List.countP_eq_zero.mpr (fun e he => by simp [(hbody e he).1])
  have hrej : (consumeBody S w p).countP Event.isReject = 0 :=
    List.countP_eq_zero.mpr (fun e he => by simp [(hbody e he).2.1])
  have hdel : (consumeBody S w p).countP (Event.isRedisDel (lockKey p)) = 0 :=
    List.countP_eq_zero.mpr (fun e he => by simp [(hbody e he).2.2])
  refine ⟨?_, ?_, ?_, ?_, ?_⟩
  · simp [Consume, List.countP_cons, List.countP_append, hack, Event.isAck]
  · have : (Consume S w p).countP (Event.isRedisDel (lockKey p)) = 1 := by
      simp [Consume, List.countP_cons, List.countP_append, hdel, Event.isRedisDel]
    exact this
  · intro k hk
    simp only [Consume, List.mem_cons, List.mem_append, List.mem_singleton, List.not_mem_nil,
      or_false] at hk
    rcases hk with (h | h) | h | h
    · cases h
    · have := (hbody _ h).2.2 k
      simp [Event.isRedisDel] at this
    · cases h
    · cases h
      rfl
  · simp [Consume, List.countP_cons, List.countP_append, hrej, Event.isReject]
  · exact ⟨Event.redisPTTL (lockKey p) :: consumeBody S w p, rfl⟩

/-- C10: every notification handed to APNs in a run has push type
"liveactivity", a topic ending in ".push-type.liveactivity" and the loaded
activity's APNs token as device token; its payload has the single key `aps`,
whose object has exactly the keys content-state (a `DynamicIslandNotification`),
dismissal-date (`expires_at` in Unix seconds), event ("update" or "end") and
timestamp (`now` in Unix seconds); and the development client is used exactly
when the activity's development flag is set. -/
theorem C10_notification_shape (S : SliceSorter) (w : World) (p : String) (d : Bool)
    (n : Notification) (res : Except String Response)
    (hpush : Event.apnsPush d n res ∈ Consume S w p) :
    ∃ la, w.liveActivityRepoGet p = .ok la ∧
      n.PushType = "liveactivity" ∧
      ".push-type.liveactivity".data <:+ n.Topic.data ∧
      n.DeviceToken = la.APNSToken ∧
      n.Payload.map Prod.fst = ["aps"] ∧
      n.apsKeys = ["content-state", "dismissal-date", "event", "timestamp"] ∧
      (∃ din, n.aps "content-state" = some (ApsValue.contentState din)) ∧
      n.aps "dismissal-date" = some (ApsValue.number (unix la.ExpiresAt)) ∧
      (n.aps "event" = some (ApsValue.text "update") ∨
        n.aps "event" = some (ApsValue.text "end")) ∧
      n.aps "timestamp" = some (ApsValue.number (unix w.now)) ∧
      d = la.Development := by
  obtain ⟨la0, la, rac, pre, tr, hget, h1, h2, h3, _, _, hd, hn, _, _⟩ :=
    push_inv S w p d n res hpush
  subst hn
  refine ⟨la0, hget, rfl, ⟨"com.christianselig.Apollo".data, rfl⟩, h1, rfl, rfl,
    ⟨contentState S tr.Post (selectCandidates w.now w.LiveActivityCheckInterval tr.Children),
      by simp [Notification.aps, buildNotification, List.lookup]⟩, ?_, ?_, ?_, ?_⟩
  · simp [Notification.aps, buildNotification, List.lookup, h3]
  · by_cases hexp : la.ExpiresAt < w.now <;>
      simp [Notification.aps, buildNotification, List.lookup, apnsEvent, hexp]
  · simp [Notification.aps, buildNotification, List.lookup]
  · rw [hd, h2]

/-- C10 at the example run: the pushed notification has the stated shape and
goes to the production client. -/
theorem C10_notification_shape_witness :
    exUpdateNotification.PushType = "liveactivity" ∧
    exUpdateNotification.DeviceToken = "LA1" ∧
    exUpdateNotification.apsKeys = ["content-state", "dismissal-date", "event", "timestamp"] ∧
    exUpdateNotification.aps "dismissal-date" = some (ApsValue.number 2000) ∧
    exUpdateNotification.aps "timestamp" = some (ApsValue.number 1000) := by
  obtain ⟨la, hla, h1, _, h3, _, h5, _, h7, _, h9, _⟩ :=
    C10_notification_shape insertionSorter exUpdateWorld "LA1" false exUpdateNotification
      (.ok exSent) (by decide)
  have hla' : la = exActivity 5000 2000 := by
    have : exUpdateWorld.liveActivityRepoGet "LA1" = .ok (exActivity 5000 2000) := by decide
    rw [this] at hla
    exact (Except.ok.inj hla).symm
  subst hla'
  exact ⟨h1, h3, h5, h7.trans (by decide), h9.trans (by decide)⟩

/-! ## Watcher repository: lemmas -/

theorem mem_innerJoin {α β : Type} (left : List α) (right : List β) (cond : α → β → Bool)
    (a : α) (b : β) :
    (a, b) ∈ innerJoin left right cond ↔ a ∈ left ∧ b ∈ right ∧ cond a b = true := by
  simp only [innerJoin, List.mem_flatMap, List.mem_map, List.mem_filter, Prod.mk.injEq]
  constructor
  · rintro ⟨a', ha', b', ⟨hb', hc⟩, rfl, rfl⟩
    exact ⟨ha', hb', hc⟩
  · rintro ⟨ha, hb, hc⟩
    exact ⟨a, ha, b, ⟨hb, hc⟩, rfl, rfl⟩

theorem mem_leftJoin {α β : Type} (left : List α) (right : List β) (cond : α → β → Bool)
    (a : α) (b : Option β) (h : (a, b) ∈ leftJoin left right cond) : a ∈ left := by
  simp only [leftJoin, List.mem_flatMap] at h
  obtain ⟨a', ha', hmem⟩ := h
  split at hmem
  · simp only [List.mem_singleton, Prod.mk.injEq] at hmem
    rw [hmem.1]
    exact ha'
  · simp only [List.mem_map, Prod.mk.injEq] at hmem
    obtain ⟨_, _, rfl, _⟩ := hmem
    exact ha'

/-- What `scanWatcher` leaves as scanned: every field but the label. -/
theorem scanWatcher_fields (r : ResultRow) :
    (scanWatcher r).ID = r.watcher.id ∧ (scanWatcher r).Typ = r.watcher.type ∧
    (scanWatcher r).WatcheeID = r.watcher.watchee_id ∧
    (scanWatcher r).DeviceID = r.watcher.device_id ∧
    (scanWatcher r).AccountID = r.watcher.account_id := by
  unfold scanWatcher
  simp only []
  split
  · exact ⟨rfl, rfl, rfl, rfl, rfl⟩
  · split <;> exact ⟨rfl, rfl, rfl, rfl, rfl⟩

/-- The row loop either stops at the first row that fails to scan, or scans
every row. -/
theorem fetchRows_cases (rows : List (Except DbError ResultRow)) (watchers : List Watcher) :
    (∃ (scanned : List ResultRow) (e : DbError) (rest : List (Except DbError ResultRow)),
      rows = scanned.map Except.ok ++ Except.error e :: rest ∧
      fetchRows rows watchers = ([], some e)) ∨
    (∃ scanned : List ResultRow, rows = scanned.map Except.ok ∧
      fetchRows rows watchers = (watchers ++ scanned.map scanWatcher, none)) := by
  induction rows generalizing watchers with
  | nil => exact Or.inr ⟨[], rfl, by simp [fetchRows]⟩
  | cons row rows ih =>
    cases row with
    | error e => exact Or.inl ⟨[], e, rows, rfl, rfl⟩
    | ok r =>
      rcases ih (watchers ++ [scanWatcher r]) with ⟨scanned, e, rest, hrows, hres⟩ |
        ⟨scanned, hrows, hres⟩
      · exact Or.inl ⟨r :: scanned, e, rest, by simp [hrows], by simp [fetchRows, hres]⟩
      · exact Or.inr ⟨r :: scanned, by simp [hrows], by simp [fetchRows, hres]⟩

/-- A watcher returned by `fetch` on a query of the connection was scanned from
a row of that query's result. -/
theorem mem_fetch_Query (conn : Connection) (query : Database → List ResultRow) (w : Watcher)
    (h : w ∈ (fetch (conn.Query query)).1) : ∃ r ∈ query conn.db, w = scanWatcher r := by
  have hrows : ∀ rows : List (Except DbError ResultRow),
      (∀ x ∈ rows, x ∈ (query conn.db).map (fun r =>
        match conn.scanError r with
        | some e => Except.error e
        | none => Except.ok r)) →
      w ∈ (fetchRows rows []).1 → ∃ r ∈ query conn.db, w = scanWatcher r := by
    intro rows hsub hw
    rcases fetchRows_cases rows [] with ⟨_, _, _, _, hres⟩ | ⟨scanned, hscanned, hres⟩
    · rw [hres] at hw
      simp at hw
    · rw [hres] at hw
      simp only [List.nil_append, List.mem_map] at hw
      obtain ⟨r, hr, rfl⟩ := hw
      refine ⟨r, ?_, rfl⟩
      have hmem : (Except.ok r : Except DbError ResultRow) ∈ rows := by
        rw [hscanned]
        exact List.mem_map.mpr ⟨r, hr, rfl⟩
      obtain ⟨r', hr', heq⟩ := List.mem_map.mp (hsub _ hmem)
      split at heq
      · cases heq
      · cases heq
        exact hr'
  unfold fetch Connection.Query at h
  cases hc : conn.callError with
  | some e =>
    rw [hc] at h
    simp at h
  | none =>
    rw [hc] at h
    cases hr : conn.readError with
    | none =>
      rw [hr] at h
      exact hrows _ (fun _ hx => hx) h
    | some ke =>
      obtain ⟨k, e⟩ := ke
      rw [hr] at h
      exact hrows _ (fun _ hx => List.mem_of_mem_take hx) h

/-- A row of the result of the query of `GetByTypeAndWatcheeID` satisfies its
`WHERE` clause through an association row of the watcher's pair. -/
theorem mem_queryGetByTypeAndWatcheeID (db : Database) (typ id : Int) (r : ResultRow)
    (h : r ∈ queryGetByTypeAndWatcheeID db typ id) :
    r.watcher ∈ db.watchers ∧ r.watcher.type = typ ∧ r.watcher.watchee_id = id ∧
    ∃ da ∈ db.devices_accounts, da.device_id = r.watcher.device_id ∧
      da.account_id = r.watcher.account_id ∧ da.watcher_notifiable = true ∧
      da.global_mute = false := by
  simp only [queryGetByTypeAndWatcheeID, List.mem_map, List.mem_filter, Bool.and_eq_true,
    decide_eq_true_eq] at h
  obtain ⟨⟨⟨⟨⟨⟨wr, d⟩, a⟩, da⟩, s⟩, u⟩, ⟨hmem, ⟨⟨⟨htyp, hid⟩, hn⟩, hm⟩⟩, rfl⟩ := h
  have h5 := mem_leftJoin _ _ _ _ _ hmem
  have h4 := mem_leftJoin _ _ _ _ _ h5
  obtain ⟨h3, hda, hc3⟩ := (mem_innerJoin _ _ _ _ _).mp h4
  obtain ⟨h2, _, hc2⟩ := (mem_innerJoin _ _ _ _ _).mp h3
  obtain ⟨hw, _, hc1⟩ := (mem_innerJoin _ _ _ _ _).mp h2
  simp only [Bool.and_eq_true, decide_eq_true_eq] at hc1 hc2 hc3 htyp hid hn hm
  refine ⟨hw, htyp, hid, da, hda, ?_, ?_, hn, hm⟩
  · rw [hc1, hc3.1]
  · rw [hc2, hc3.2]

/-! ## Watcher repository: claims -/

/-- C11: every watcher returned by `GetByTypeAndWatcheeID` (and so by
`GetBySubredditID`, `GetByUserID` and `GetByTrendingSubredditID`) has the
requested type and watchee id, and its device-account pair has an association
row with `watcher_notifiable = true` and `global_mute = false`; a watcher of
the store whose pair has only muted or non-notifiable association rows, or
none, is not returned. -/
theorem C11_notifiable_watchers_only (conn : Connection) (typ id : Int) :
    (∀ w ∈ (GetByTypeAndWatcheeID conn typ id).1,
      w.Typ = typ ∧ w.WatcheeID = id ∧
      ∃ da ∈ conn.db.devices_accounts, da.device_id = w.DeviceID ∧
        da.account_id = w.AccountID ∧ da.watcher_notifiable = true ∧
        da.global_mute = false) ∧
    (∀ wr ∈ conn.db.watchers,
      (∀ da ∈ conn.db.devices_accounts, da.device_id = wr.device_id →
        da.account_id = wr.account_id → da.watcher_notifiable = false ∨ da.global_mute = true) →
      ∀ w ∈ (GetByTypeAndWatcheeID conn typ id).1,
        ¬ (w.ID = wr.id ∧ w.DeviceID = wr.device_id ∧ w.AccountID = wr.account_id)) ∧
    GetBySubredditID conn id = GetByTypeAndWatcheeID conn 0 id ∧
    GetByUserID conn id = GetByTypeAndWatcheeID conn 1 id ∧
    GetByTrendingSubredditID conn id = GetByTypeAndWatcheeID conn 2 id := by
  have hmain : ∀ w ∈ (GetByTypeAndWatcheeID conn typ id).1,
      w.Typ = typ ∧ w.WatcheeID = id ∧
      ∃ da ∈ conn.db.devices_accounts, da.device_id = w.DeviceID ∧
        da.account_id = w.AccountID ∧ da.watcher_notifiable = true ∧
        da.global_mute = false := by
    intro w hw
    obtain ⟨r, hr, rfl⟩ := mem_fetch_Query conn _ w hw
    obtain ⟨_, htyp, hid, da, hda, hdev, hacc, hn, hm⟩ :=
      mem_queryGetByTypeAndWatcheeID conn.db typ id r hr
    obtain ⟨_, h2, h3, h4, h5⟩ := scanWatcher_fields r
    exact ⟨h2.trans htyp, h3.trans hid, da, hda, hdev.trans h4.symm, hacc.trans h5.symm, hn, hm⟩
  refine ⟨hmain, ?_, rfl, rfl, rfl⟩
  intro wr _ hall w hw ⟨_, hdev, hacc⟩
  obtain ⟨_, _, da, hda, hd, ha, hn, hm⟩ := hmain w hw
  rcases hall da hda (hd.trans hdev) (ha.trans hacc) with h | h
  · rw [hn] at h
    cases h
  · rw [hm] at h
    cases h

/-- C11 at the example store: of the three watchers of subreddit 7 only
watcher 1, whose pair is notifiable and not muted, is returned; watcher 2
(muted pair) and watcher 3 (no association row) are not. -/
theorem C11_notifiable_watchers_only_witness :
    (GetBySubredditID exConnection 7).1 = [exWatcher] ∧
    (∃ da ∈ exDatabase.devices_accounts, da.device_id = exWatcher.DeviceID ∧
      da.account_id = exWatcher.AccountID ∧ da.watcher_notifiable = true ∧
      da.global_mute = false) ∧
    (∀ w ∈ (GetByTypeAndWatcheeID exConnection 0 7).1, ¬ (w.ID = 2 ∧ w.DeviceID = 11 ∧
      w.AccountID = 20)) :=
  ⟨by decide,
    ((C11_notifiable_watchers_only exConnection 0 7).1 exWatcher (by decide)).2.2,
    (C11_notifiable_watchers_only exConnection 0 7).2.1 (exWatcherRecord 2 11 20) (by decide)
      (by decide)⟩


/-- The outcomes of `GetByID`: `domain.ErrNotFound` with the zero-value watcher
exactly when the call succeeds and no row is read, whatever `rows.Err()`
holds; the error of the call, or of the first row that fails to scan; and
otherwise the first row. -/
theorem GetByID_outcomes (conn : Connection) (id : Int) :
    ((GetByID conn id).2 = some RepositoryError.ErrNotFound ↔
      ∃ err, conn.Query (fun db => queryGetByID db id) = .ok { rows := [], Err := err }) ∧
    ((GetByID conn id).2 = some RepositoryError.ErrNotFound →
      (GetByID conn id).1 = Watcher.zero) ∧
    (∀ e, conn.Query (fun db => queryGetByID db id) = .error e →
      GetByID conn id = (Watcher.zero, some (RepositoryError.underlying e))) ∧
    (∀ (scanned : List ResultRow) (e : DbError) (rest : List (Except DbError ResultRow))
      (err : Option DbError),
      conn.Query (fun db => queryGetByID db id)
        = .ok { rows := scanned.map Except.ok ++ Except.error e :: rest, Err := err } →
      GetByID conn id = (Watcher.zero, some (RepositoryError.underlying e))) ∧
    (∀ (first : ResultRow) (others : List ResultRow) (err : Option DbError),
      conn.Query (fun db => queryGetByID db id)
        = .ok { rows := (first :: others).map Except.ok, Err := err } →
      GetByID conn id = (scanWatcher first, none)) := by
  have hfail : ∀ (scanned : List ResultRow) (e : DbError)
      (rest : List (Except DbError ResultRow)) (watchers : List Watcher),
      fetchRows (scanned.map Except.ok ++ Except.error e :: rest) watchers = ([], some e) := by
    intro scanned e rest
    induction scanned with
    | nil => intro watchers; rfl
    | cons r scanned ih => intro watchers; simpa [fetchRows] using ih _
  have hok : ∀ (scanned : List ResultRow) (watchers : List Watcher),
      fetchRows (scanned.map Except.ok) watchers
        = (watchers ++ scanned.map scanWatcher, none) := by
    intro scanned
    induction scanned with
    | nil => intro watchers; simp [fetchRows]
    | cons r scanned ih => intro watchers; simp [fetchRows, ih]
  refine ⟨?_, ?_, ?_, ?_, ?_⟩
  · unfold GetByID fetch
    cases hq : conn.Query (fun db => queryGetByID db id) with
    | error e => simp
    | ok rows =>
      obtain ⟨rows, err⟩ := rows
      rcases fetchRows_cases rows [] with ⟨scanned, e, rest, hrows, hres⟩ |
        ⟨scanned, hrows, hres⟩
      · simp only [hres]
        subst hrows
        simp
      · simp only [hres, List.nil_append]
        subst hrows
        cases scanned with
        | nil => simp
        | cons r rs => simp
  · unfold GetByID
    intro h
    split at h
    · rfl
    · split
      · rfl
      · simp at h
  · intro e hq
    simp [GetByID, fetch, hq]
  · intro scanned e rest err hq
    simp [GetByID, fetch, hq, hfail]
  · intro first others err hq
    simp only [GetByID, fetch, hq]
    rw [hok]
    rfl

/-- C12, evaluated where it fails: on a connection whose result set breaks off
with an error before its first row is read, the query of `GetByID` has failed
(`rows.Err()` holds the error) and the store holds watcher 1, which the intact
connection returns; yet `GetByID` returns the zero-value watcher with
`domain.ErrNotFound` instead of that error. -/
theorem C12_read_error_reported_not_found :
    exReadFailConnection.Query (fun db => queryGetByID db 1)
      = .ok { rows := [], Err := some { msg := "connection reset" } } ∧
    GetByID exConnection 1 = (exWatcher, none) ∧
    GetByID exReadFailConnection 1 = (Watcher.zero, some RepositoryError.ErrNotFound) := by
  decide

/-- C13: `IncrementHits` issues one statement; when it succeeds, every watcher
row with the given id has `hits` raised by one and `last_notified_at` set to
the current time, with all its other columns unchanged, every other watcher
row is unchanged, and so is every other table. -/
theorem C13_IncrementHits_single_update (conn : Connection) (id now : Int)
    (hok : conn.callError = none) :
    (IncrementHits conn id now).2 = none ∧
    (IncrementHits conn id now).1.statements = conn.statements + 1 ∧
    List.Forall₂
      (fun old new =>
        (old.id = id →
          new.hits = old.hits + 1 ∧ new.last_notified_at = now ∧ new.id = old.id ∧
          new.created_at = old.created_at ∧ new.label = old.label ∧
          new.device_id = old.device_id ∧ new.account_id = old.account_id ∧
          new.type = old.type ∧ new.watchee_id = old.watchee_id ∧ new.author = old.author ∧
          new.subreddit = old.subreddit ∧ new.upvotes = old.upvotes ∧
          new.keyword = old.keyword ∧ new.flair = old.flair ∧ new.domain = old.domain) ∧
        (old.id ≠ id → new = old))
      conn.db.watchers (IncrementHits conn id now).1.db.watchers ∧
    (IncrementHits conn id now).1.db.devices = conn.db.devices ∧
    (IncrementHits conn id now).1.db.accounts = conn.db.accounts ∧
    (IncrementHits conn id now).1.db.devices_accounts = conn.db.devices_accounts ∧
    (IncrementHits conn id now).1.db.subreddits = conn.db.subreddits ∧
    (IncrementHits conn id now).1.db.users = conn.db.users := by
  have hrun : IncrementHits conn id now =
      ({ conn with db := updateHits id now conn.db, statements := conn.statements + 1 },
        none) := by
    simp [IncrementHits, Connection.Exec, hok]
  rw [hrun]
  refine ⟨rfl, rfl, ?_, rfl, rfl, rfl, rfl, rfl⟩
  simp only [updateHits]
  rw [List.forall₂_map_right_iff]
  apply List.forall₂_same.mpr
  intro old _
  by_cases h : old.id = id
  · simp [h]
  · simp [h]

/-- C13 at the example store: incrementing watcher 2 at second 5000 changes
only the hits and the notification time of watcher 2. -/
theorem C13_IncrementHits_single_update_witness :
    (IncrementHits exConnection 2 5000).1.statements = 1 ∧
    (IncrementHits exConnection 2 5000).1.db.watchers =
      [exWatcherRecord 1 10 20,
       { exWatcherRecord 2 11 20 with hits := 4, last_notified_at := 5000 },
       exWatcherRecord 3 12 20] :=
  ⟨(C13_IncrementHits_single_update exConnection 2 5000 rfl).2.1, by decide⟩


/-! ## Token obfuscation: claim -/

/-- C14: for every access token `s`, `ObfuscatedAccessToken` is `<SHORT>` if
and only if `s` has at most 8 characters; otherwise it is the first three
characters of `s`, then `...`, then the last three characters of `s`; and the
result never has more than 9 characters. -/
theorem C14_obfuscated_access_token (redditId refreshToken s : String) :
    ((NewAuthenticatedClient redditId refreshToken s).ObfuscatedAccessToken = "<SHORT>" ↔
      s.length ≤ 8) ∧
    (¬ s.length ≤ 8 →
      ∃ first last : List Char, first.length = 3 ∧ last.length = 3 ∧
        first <+: s.data ∧ last <:+ s.data ∧
        (NewAuthenticatedClient redditId refreshToken s).ObfuscatedAccessToken
          = String.mk (first ++ "...".data ++ last)) ∧
    (NewAuthenticatedClient redditId refreshToken s).ObfuscatedAccessToken.length ≤ 9 := by
  have hlen : s.data.length = s.length := rfl
  by_cases h : s.length ≤ 8
  · have hshort : (NewAuthenticatedClient redditId refreshToken s).ObfuscatedAccessToken
        = "<SHORT>" := by
      simp [AuthenticatedClient.ObfuscatedAccessToken, NewAuthenticatedClient, obfuscate, h]
    refine ⟨⟨fun _ => h, fun _ => hshort⟩, fun hn => absurd h hn, ?_⟩
    rw [hshort]
    decide
  · have hlong : (NewAuthenticatedClient redditId refreshToken s).ObfuscatedAccessToken
        = String.mk (s.data.take 3 ++ "...".data ++ s.data.drop (s.length - 3)) := by
      simp [AuthenticatedClient.ObfuscatedAccessToken, NewAuthenticatedClient, obfuscate, h]
    have h1 : (s.data.take 3).length = 3 := by
      rw [List.length_take, hlen]
      omega
    have h2 : (s.data.drop (s.length - 3)).length = 3 := by
      rw [List.length_drop, hlen]
      omega
    have hl : (String.mk (s.data.take 3 ++ "...".data ++ s.data.drop (s.length - 3))).length
        = 9 := by
      rw [String.length_mk, List.length_append, List.length_append, h1, h2]
      rfl
    refine ⟨⟨fun heq => ?_, fun hle => absurd hle h⟩, fun _ => ?_, ?_⟩
    · rw [hlong] at heq
      have := congrArg String.length heq
      rw [hl] at this
      exact absurd this (by decide)
    · exact ⟨_, _, h1, h2, List.take_prefix 3 s.data, List.drop_suffix _ s.data, hlong⟩
    · rw [hlong, hl]

/-- C14 at the two cases of `TestAuthenticatedClientObfuscatedToken`. -/
theorem C14_obfuscated_access_token_witness :
    (NewAuthenticatedClient "<ID>" "<REFRESH>" "abc").ObfuscatedAccessToken = "<SHORT>" ∧
    (NewAuthenticatedClient "<ID>" "<REFRESH>" "abcdefghi").ObfuscatedAccessToken
      = "abc...ghi" ∧
    (NewAuthenticatedClient "<ID>" "<REFRESH>" "abcdefghi").ObfuscatedAccessToken.length ≤ 9 :=
  ⟨(C14_obfuscated_access_token "<ID>" "<REFRESH>" "abc").1.mpr (by decide), by decide,
    (C14_obfuscated_access_token "<ID>" "<REFRESH>" "abcdefghi").2.2⟩

/-! ## Receipt check: claim -/

/-- C15 as stated fails: the receipt says `DeleteDevice` and the grace period
of the found device has elapsed, but the lookup of its accounts fails; the
handler answers 500 and the device is neither deleted nor changed. -/
theorem C15_counterexample :
    (exReceiptWorld exExpiredReceipt (.error "timeout")).NewIAPResponse "receipt"
      = .ok exExpiredReceipt ∧
    (exReceiptWorld exExpiredReceipt (.error "timeout")).deviceGetByAPNSToken "d10"
      = .ok exDevice ∧
    exExpiredReceipt.DeleteDevice = true ∧
    exDevice.GracePeriodExpiresAt < (exReceiptWorld exExpiredReceipt (.error "timeout")).now ∧
    checkReceiptHandler (exReceiptWorld exExpiredReceipt (.error "timeout")) "d10" "receipt" =
      [ReceiptEvent.deviceGetByAPNSToken "d10" (.ok exDevice),
       ReceiptEvent.accountGetByAPNSToken "d10" (.error "timeout"),
       ReceiptEvent.errorResponse 500 "timeout"] := by
  decide

/-- C15, amended: for a request with a device token whose device is found and
whose receipt was parsed, the device is deleted if and only if the receipt
says `DeleteDevice`, the device's `GracePeriodExpiresAt` is before `now` and
the lookup of the device's accounts succeeds, and then after every account
found is disassociated from it; when that lookup fails the handler answers
500 and leaves the device alone; when the receipt says `DeleteDevice` and the
grace period has not elapsed the device is left unchanged; and when the
receipt does not say `DeleteDevice` the device is updated with
`ExpiresAt = now + DeviceActiveAfterReceitCheckDuration` and
`GracePeriodExpiresAt = ExpiresAt + DeviceGracePeriodAfterReceiptExpiry`. -/
theorem C15_receipt_device_lifecycle (w : ReceiptWorld) (apns body : String)
    (iapr : IAPResponse) (dev : Device) (hapns : apns ≠ "")
    (hparsed : w.NewIAPResponse body = .ok iapr)
    (hfound : w.deviceGetByAPNSToken apns = .ok dev) :
    ((∃ e ∈ checkReceiptHandler w apns body, e.isDelete = true) ↔
      iapr.DeleteDevice = true ∧ dev.GracePeriodExpiresAt < w.now ∧
        ∃ accs, w.accountGetByAPNSToken apns = .ok accs) ∧
    (∀ accs, iapr.DeleteDevice = true → dev.GracePeriodExpiresAt < w.now →
      w.accountGetByAPNSToken apns = .ok accs →
      checkReceiptHandler w apns body =
        ReceiptEvent.deviceGetByAPNSToken apns (.ok dev) ::
        ReceiptEvent.accountGetByAPNSToken apns (.ok accs) ::
        (accs.map (fun acc => ReceiptEvent.accountDisassociate acc dev) ++
          [ReceiptEvent.deviceDelete apns, ReceiptEvent.writeHeader 200,
            ReceiptEvent.write iapr.VerificationInfo])) ∧
    (∀ err, iapr.DeleteDevice = true → dev.GracePeriodExpiresAt < w.now →
      w.accountGetByAPNSToken apns = .error err →
      checkReceiptHandler w apns body =
        [ReceiptEvent.deviceGetByAPNSToken apns (.ok dev),
         ReceiptEvent.accountGetByAPNSToken apns (.error err),
         ReceiptEvent.errorResponse 500 err]) ∧
    (iapr.DeleteDevice = true → ¬ dev.GracePeriodExpiresAt < w.now →
      checkReceiptHandler w apns body =
        [ReceiptEvent.deviceGetByAPNSToken apns (.ok dev), ReceiptEvent.writeHeader 200,
         ReceiptEvent.write iapr.VerificationInfo]) ∧
    (iapr.DeleteDevice = false →
      checkReceiptHandler w apns body =
        [ReceiptEvent.deviceGetByAPNSToken apns (.ok dev),
         ReceiptEvent.deviceUpdate { dev with
           ExpiresAt := w.now + w.DeviceActiveAfterReceitCheckDuration
           GracePeriodExpiresAt :=
             w.now + w.DeviceActiveAfterReceitCheckDuration
               + w.DeviceGracePeriodAfterReceiptExpiry },
         ReceiptEvent.writeHeader 200, ReceiptEvent.write iapr.VerificationInfo]) := by
  have hdel : ∀ accs, iapr.DeleteDevice = true → dev.GracePeriodExpiresAt < w.now →
      w.accountGetByAPNSToken apns = .ok accs →
      checkReceiptHandler w apns body =
        ReceiptEvent.deviceGetByAPNSToken apns (.ok dev) ::
        ReceiptEvent.accountGetByAPNSToken apns (.ok accs) ::
        (accs.map (fun acc => ReceiptEvent.accountDisassociate acc dev) ++
          [ReceiptEvent.deviceDelete apns, ReceiptEvent.writeHeader 200,
            ReceiptEvent.write iapr.VerificationInfo]) := by
    intro accs hd hg ha
    simp [checkReceiptHandler, hparsed, hapns, hfound, hd, hg, ha]
  have herr : ∀ err, iapr.DeleteDevice = true → dev.GracePeriodExpiresAt < w.now →
      w.accountGetByAPNSToken apns = .error err →
      checkReceiptHandler w apns body =
        [ReceiptEvent.deviceGetByAPNSToken apns (.ok dev),
         ReceiptEvent.accountGetByAPNSToken apns (.error err),
         ReceiptEvent.errorResponse 500 err] := by
    intro err hd hg ha
    simp [checkReceiptHandler, hparsed, hapns, hfound, hd, hg, ha]
  have hkeep : iapr.DeleteDevice = true → ¬ dev.GracePeriodExpiresAt < w.now →
      checkReceiptHandler w apns body =
        [ReceiptEvent.deviceGetByAPNSToken apns (.ok dev), ReceiptEvent.writeHeader 200,
         ReceiptEvent.write iapr.VerificationInfo] := by
    intro hd hg
    simp [checkReceiptHandler, hparsed, hapns, hfound, hd, hg]
  have hupd : iapr.DeleteDevice = false →
      checkReceiptHandler w apns body =
        [ReceiptEvent.deviceGetByAPNSToken apns (.ok dev),
         ReceiptEvent.deviceUpdate { dev with
           ExpiresAt := w.now + w.DeviceActiveAfterReceitCheckDuration
           GracePeriodExpiresAt :=
             w.now + w.DeviceActiveAfterReceitCheckDuration
               + w.DeviceGracePeriodAfterReceiptExpiry },
         ReceiptEvent.writeHeader 200, ReceiptEvent.write iapr.VerificationInfo] := by
    intro hd
    simp [checkReceiptHandler, hparsed, hapns, hfound, hd, refreshDevice]
  refine ⟨⟨?_, ?_⟩, hdel, herr, hkeep, hupd⟩
  · rintro ⟨e, he, hise⟩
    cases hd : iapr.DeleteDevice with
    | false =>
      rw [hupd hd] at he
      simp only [List.mem_cons, List.mem_singleton, List.not_mem_nil, or_false] at he
      rcases he with rfl | rfl | rfl | rfl <;> cases hise
    | true =>
      by_cases hg : dev.GracePeriodExpiresAt < w.now
      · cases ha : w.accountGetByAPNSToken apns with
        | error err =>
          rw [herr err hd hg ha] at he
          simp only [List.mem_cons, List.mem_singleton, List.not_mem_nil, or_false] at he
          rcases he with rfl | rfl | rfl <;> cases hise
        | ok accs => exact ⟨rfl, hg, accs, rfl⟩
      · rw [hkeep hd hg] at he
        simp only [List.mem_cons, List.mem_singleton, List.not_mem_nil, or_false] at he
        rcases he with rfl | rfl | rfl <;> cases hise
  · rintro ⟨hd, hg, accs, ha⟩
    refine ⟨ReceiptEvent.deviceDelete apns, ?_, rfl⟩
    rw [hdel accs hd hg ha]
    simp

/-- C15 (amended) at a receipt that says `DeleteDevice` for the example device,
whose grace period ended 100 seconds before the request and which has one
account: the account is disassociated, then the device is deleted. -/
theorem C15_receipt_device_lifecycle_witness :
    checkReceiptHandler (exReceiptWorld exExpiredReceipt (.ok [exAccount])) "d10" "receipt" =
      [ReceiptEvent.deviceGetByAPNSToken "d10" (.ok exDevice),
       ReceiptEvent.accountGetByAPNSToken "d10" (.ok [exAccount]),
       ReceiptEvent.accountDisassociate exAccount exDevice,
       ReceiptEvent.deviceDelete "d10", ReceiptEvent.writeHeader 200,
       ReceiptEvent.write "info"] :=
  (C15_receipt_device_lifecycle (exReceiptWorld exExpiredReceipt (.ok [exAccount])) "d10"
    "receipt" exExpiredReceipt exDevice (by decide) (by decide) (by decide)).2.1 [exAccount]
    (by decide) (by decide) (by decide)


end Apollo
